import Mathlib

/-!
# NMEA sentence parser and register maps of the GPS to I2C bridge

Shallow embedding of `GPS::appendCharacter` (`gps.cpp`, lines 39-206) with the
record types of `gps.h`, of the register read of the scalar-map firmware
(`ATmega168-GPS-I2C.c`: `i2c_slave_action`, `ISR(TWI_vect)`), of its serial
input (`process_serial`) and of the opcode handler of the burst-map firmware
(`ATmega328-I2C-GPS.cpp`), and the properties of them that the specification
states.

## Reading of the source

Bytes are natural numbers.  A region of memory (the line buffer, the field
table `parts`, a `malloc` block) is a `List Nat` that starts at the address of
the region; a pointer into a region is the list of the bytes from that address
on.

On the carriage return `GPS::appendCharacter` reads memory that nothing has
set, and on some lines it stores outside its arrays.  The file embeds the
method twice.

* `Machine.appendCharacter` takes what the source leaves open as an argument,
  the machine `Machine.Env`: the value of `char i` (line 55, first read at
  line 61), the bytes of `parts` (line 53), and the bytes at and behind each
  `malloc` block.  The blocks have no room for a terminator (`malloc(2)` for
  two digits, `malloc(3)` for up to three; lines 87-97, 115-130, 192-195), so
  `atoi` reads on behind them.  A store outside `buffer`, `parts` or a block,
  a store through `min_dec`, `min_int` or `deg` when the latitude branch of
  lines 115-117 has not set them, and a read that runs off the end of
  `buffer` or `parts` end the call with a `Machine.Fault`; what the program
  does from there on is not determined by the source.  The theorems on the
  values that a sentence stores, on lines of few or of many fields, on a line
  fed twice and on the reset of the buffer are stated on this embedding.
* `appendCharacter` is the method as a total function: `i` starts at 0, `parts`
  and every block hold NUL bytes when the call comes to them, the three blocks
  of lines 115-117 are there before the latitude test, and a store beyond the
  end of a region lengthens the region.  It serves where the source goes wrong
  on every machine: the store index of the line buffer (lines 41-42), and the
  sentences on which lines 45, 71, 141, 158 and 177 show.  On those sentences
  it leaves the record that the call on the machine `Machine.calm` leaves
  (`calm_agrees`).

Common to both embeddings:

* `parts[k] == "V"` (lines 71, 141) compares the address of the array
  `parts[k]` with the address of a string literal.  These are different
  objects, so the comparison is false whatever the field holds
  (`arrayEqLiteral`).  `parts[k] = "E"` (line 177) is an assignment used as a
  condition: its value is the address of the literal, which is not null, so
  the condition holds (`assignLiteral`).
* Line 133 reads `strlen(parts[RMC_LAT_DIR_INDEX] == 0 )`; the embeddings
  close the parenthesis after the argument, as the five sibling tests do.
* `min_dec`, `min_int`, `deg` and `len` are declared in the latitude branch
  (lines 115-119) and used again in the longitude branch (lines 147-167); the
  embeddings take the four declarations to stand before the latitude test.
* `malloc` is taken to succeed, and `atoi` to return the value of the digits
  it reads, without overflow.
* A byte of `buffer` that was never stored to is NUL: the object `gps` has
  static storage.
-/

namespace GpsBridge

/-! ## Constants and record types (`gps.cpp` 23-37, `gps.h` 14-56) -/

def RMC_FIX_TIME : Nat := 0x01
def RMC_VALID_INDEX : Nat := 0x02
def RMC_LAT_INDEX : Nat := 0x03
def RMC_LAT_DIR_INDEX : Nat := 0x04
def RMC_LON_INDEX : Nat := 0x05
def RMC_LON_DIR_INDEX : Nat := 0x06
def RMC_VEL_KTS_INDEX : Nat := 0x07

def GPS_DATA_INVALID : Nat := 0xFE

def DIR_NORTH : Nat := 0
def DIR_SOUTH : Nat := 1
def DIR_EAST : Nat := 0
def DIR_WEST : Nat := 1

structure FixTime where
  hour : Nat
  minute : Nat
  second : Nat
deriving DecidableEq, Repr

structure CoordinateComponent where
  degrees : Nat
  minutes : Nat
  seconds : Nat
  direction : Nat
deriving DecidableEq, Repr

/-- The data members of `class GPS`. -/
structure GPS where
  latitude : CoordinateComponent
  longitude : CoordinateComponent
  time : FixTime
  velocity : Nat
  buffer : List Nat
  buffer_index : Nat
  isValid : Bool
  isComplete : Bool
deriving DecidableEq, Repr

/-! ## Memory and the C library routines the parser calls -/

/-- Store of the bytes `bs` at offset `off` of the region `m`. -/
def pokes (m : List Nat) (off : Nat) (bs : List Nat) : List Nat :=
  (m ++ List.replicate (off - m.length) 0).take off ++ bs ++ m.drop (off + bs.length)

/-- A block of `n` bytes that holds NUL bytes: the blocks of `appendCharacter`.
The blocks of `Machine.appendCharacter` hold what `Machine.Env` lists. -/
def malloc (n : Nat) : List Nat := List.replicate n 0

/-- Conversion of an `int` to `uint8_t`. -/
def toU8 (x : Int) : Nat := (x % 256).toNat

/-- Length of the C string at `p`. -/
def strlen : List Nat → Nat
  | [] => 0
  | b :: bs => if b = 0 then 0 else strlen bs + 1

/-- Offset from `p` of the first byte `c` of the C string at `p`, `none` for a
null result. -/
def strchr (c : Nat) : List Nat → Option Nat
  | [] => if c = 0 then some 0 else none
  | b :: bs =>
    if b = c then some 0
    else if b = 0 then none
    else (strchr c bs).map (· + 1)

/-- Sign of `strcmp(a, b)`: the difference of the first pair of bytes that
differ, 0 when the two C strings are equal. -/
def strcmp : List Nat → List Nat → Int
  | [], [] => 0
  | [], b :: _ => - (b : Int)
  | a :: _, [] => (a : Int)
  | a :: as, b :: bs =>
    if a = b then (if a = 0 then 0 else strcmp as bs) else (a : Int) - (b : Int)

/-- The `n` bytes that `strncpy(dst, src, n)` stores: the bytes of the C
string at `src`, cut at `n`, filled up with NUL bytes to `n`. -/
def strncpyBytes : List Nat → Nat → List Nat
  | _, 0 => []
  | [], n + 1 => List.replicate (n + 1) 0
  | b :: bs, n + 1 =>
    if b = 0 then List.replicate (n + 1) 0 else b :: strncpyBytes bs n

/-- The region `dst` after `strncpy(dst, src, n)`. -/
def strncpy (dst src : List Nat) (n : Nat) : List Nat :=
  pokes dst 0 (strncpyBytes src n)

def isspace (c : Nat) : Bool := c == 32 || (9 ≤ c && c ≤ 13)

def isdigit (c : Nat) : Bool := 48 ≤ c && c ≤ 57

/-- Value of the run of decimal digits at the head of the bytes. -/
def atoiDigits : Nat → List Nat → Nat
  | acc, [] => acc
  | acc, b :: bs => if isdigit b then atoiDigits (10 * acc + (b - 48)) bs else acc

/-- Value of `atoi` once the white space is skipped: an optional sign, then
digits. -/
def atoiSigned : List Nat → Int
  | [] => 0
  | b :: bs =>
    if b = 45 then - (atoiDigits 0 bs : Int)
    else if b = 43 then (atoiDigits 0 bs : Int)
    else (atoiDigits 0 (b :: bs) : Int)

/-- Value of `atoi(p)`. -/
def atoi : List Nat → Int
  | [] => 0
  | b :: bs => if isspace b then atoi bs else atoiSigned (b :: bs)

/-- Value of `a == "lit"` for an array `a`: a comparison of two addresses of
different objects. -/
def arrayEqLiteral (_a _lit : List Nat) : Bool := false

/-- Value, as a condition, of `a = "lit"`: the address of the literal. -/
def assignLiteral (_lit : List Nat) : Bool := true

/-! ## `GPS::appendCharacter` as a total function -/

/-- The loop of lines 58-70 that cuts the line at its commas and stores the
pieces in `parts`, 20 bytes apart.  `p_start` points into the line buffer. -/
def splitLoop : Nat → List Nat → List Nat → Nat → List Nat
  | 0, _, parts, _ => parts
  | fuel + 1, p_start, parts, i =>
    match strchr 44 p_start with
    | some n =>
      let parts := pokes parts (20 * i) (strncpyBytes p_start n)
      let parts := pokes parts (20 * i + n) [0]
      splitLoop fuel (p_start.drop (n + 1)) parts ((i + 1) % 256)
    | none => pokes parts (20 * i) (strncpyBytes p_start 20)

/-- The blocks `min_dec`, `min_int`, `deg` shared by lines 115-167. -/
structure Scratch where
  min_dec : List Nat
  min_int : List Nat
  deg : List Nat
deriving DecidableEq, Repr

/-- The blocks `min_dec`, `min_int`, `deg` as `malloc(2)`, `malloc(2)` and `malloc(3)` return them (lines 115-117). -/
def freshScratch : Scratch := { min_dec := malloc 2, min_int := malloc 2, deg := malloc 3 }

/-- Lines 79-103: the time of the fix. -/
def storeTime (s : GPS) (parts : List Nat) : GPS :=
  if strlen (parts.drop (20 * RMC_FIX_TIME)) = 0 then
    { s with
      time := { hour := GPS_DATA_INVALID, minute := GPS_DATA_INVALID,
                second := GPS_DATA_INVALID }
      isComplete := false }
  else
    let hr := strncpy (malloc 2) (parts.drop (20 * RMC_FIX_TIME + 0)) 2
    let min := strncpy (malloc 2) (parts.drop (20 * RMC_FIX_TIME + 2)) 2
    let sec := strncpy (malloc 2) (parts.drop (20 * RMC_FIX_TIME + 4)) 2
    { s with
      time := { hour := toU8 (atoi hr), minute := toU8 (atoi min),
                second := toU8 (atoi sec) } }

/-- Lines 106-131: the latitude. -/
def storeLatitude (s : GPS) (parts : List Nat) (sc : Scratch) : GPS × Scratch :=
  if strlen (parts.drop (20 * RMC_LAT_INDEX)) = 0 then
    ({ s with
       latitude := { s.latitude with
         degrees := GPS_DATA_INVALID, minutes := GPS_DATA_INVALID,
         seconds := GPS_DATA_INVALID }
       isComplete := false }, sc)
  else
    let len := strlen (parts.drop (20 * RMC_LAT_INDEX)) % 256
    let min_dec := strncpy sc.min_dec (parts.drop (20 * RMC_LAT_INDEX + len - 2)) 2
    let min_int := strncpy sc.min_int (parts.drop (20 * RMC_LAT_INDEX + len - 5)) 2
    let deg :=
      if len = 8 then strncpy sc.deg (parts.drop (20 * RMC_LAT_INDEX)) 3
      else strncpy sc.deg (parts.drop (20 * RMC_LAT_INDEX)) 2
    ({ s with
       latitude := { s.latitude with
         degrees := toU8 (atoi deg), minutes := toU8 (atoi min_int),
         seconds := toU8 ((atoi min_dec * 6).tdiv 10) } },
     { min_dec := min_dec, min_int := min_int, deg := deg })

/-- Lines 133-145: the latitude direction. -/
def storeLatDir (s : GPS) (parts : List Nat) : GPS :=
  if strlen (parts.drop (20 * RMC_LAT_DIR_INDEX)) = 0 then
    { s with
      latitude := { s.latitude with direction := GPS_DATA_INVALID }
      isComplete := false }
  else if arrayEqLiteral (parts.drop (20 * RMC_LAT_DIR_INDEX)) [78, 0] then
    { s with latitude := { s.latitude with direction := DIR_NORTH } }
  else
    { s with latitude := { s.latitude with direction := DIR_SOUTH } }

/-- Lines 147-168: the longitude.  Line 158 copies the degree digits from
`parts[RMC_LAT_INDEX]`. -/
def storeLongitude (s : GPS) (parts : List Nat) (sc : Scratch) : GPS :=
  let len := strlen (parts.drop (20 * RMC_LON_INDEX)) % 256
  if len = 0 then
    { s with
      longitude := { s.longitude with
        degrees := GPS_DATA_INVALID, minutes := GPS_DATA_INVALID,
        seconds := GPS_DATA_INVALID }
      isComplete := false }
  else
    let min_dec := strncpy sc.min_dec (parts.drop (20 * RMC_LON_INDEX + len - 2)) 2
    let min_int := strncpy sc.min_int (parts.drop (20 * RMC_LON_INDEX + len - 5)) 2
    let deg := strncpy sc.deg (parts.drop (20 * RMC_LAT_INDEX)) (if len = 8 then 3 else 2)
    { s with
      longitude := { s.longitude with
        degrees := toU8 (atoi deg), minutes := toU8 (atoi min_int),
        seconds := toU8 ((atoi min_dec * 6).tdiv 10) } }

/-- Lines 171-181: the longitude direction. -/
def storeLonDir (s : GPS) (parts : List Nat) : GPS :=
  if strlen (parts.drop (20 * RMC_LON_DIR_INDEX)) = 0 then
    { s with
      longitude := { s.longitude with direction := GPS_DATA_INVALID }
      isComplete := false }
  else if assignLiteral [69, 0] then
    { s with longitude := { s.longitude with direction := DIR_EAST } }
  else
    { s with longitude := { s.longitude with direction := DIR_WEST } }

/-- Lines 184-198: the velocity.  `len - 2` is an `int` converted to the
16-bit `size_t` of the target. -/
def storeVelocity (s : GPS) (parts : List Nat) : GPS :=
  let len := strlen (parts.drop (20 * RMC_VEL_KTS_INDEX)) % 256
  if len = 0 then
    { s with velocity := GPS_DATA_INVALID, isComplete := false }
  else
    let velocity_str :=
      strncpy (malloc 3) (parts.drop (20 * RMC_VEL_KTS_INDEX)) ((len + 65536 - 2) % 65536)
    { s with velocity := toU8 (atoi velocity_str) }

/-- Lines 75-198: the stores that follow the status test. -/
def storeFix (s : GPS) (parts : List Nat) : GPS :=
  let s := { s with isValid := true }
  let s := storeTime s parts
  let r := storeLatitude s parts freshScratch
  let s := storeLatDir r.1 parts
  let s := storeLongitude s parts r.2
  let s := storeLonDir s parts
  storeVelocity s parts

/-- The method `GPS::appendCharacter`: the object after the call, and the
value returned. -/
def appendCharacter (s : GPS) (c : Nat) : GPS × Bool :=
  let s := { s with
    buffer := pokes s.buffer s.buffer_index [c]
    buffer_index := (s.buffer_index + 1) % 65536 }
  if c = 0x0D then
    if strcmp s.buffer [36, 71, 80, 82, 0] ≠ 0 then
      let s := { s with isComplete := true }
      let parts := splitLoop (s.buffer.length + 1) s.buffer (malloc 300) 0
      if arrayEqLiteral (parts.drop (20 * RMC_VALID_INDEX)) [86, 0] then
        ({ s with isValid := false }, true)
      else
        let s := storeFix s parts
        ({ s with buffer_index := 0, buffer := pokes s.buffer 0 [0] }, true)
    else
      ({ s with buffer_index := 0, buffer := pokes s.buffer 0 [0] }, false)
  else
    (s, false)

/-- The object after the bytes `cs` went through `appendCharacter` one by
one. -/
def feed (s : GPS) : List Nat → GPS
  | [] => s
  | c :: cs => feed (appendCharacter s c).1 cs

/-! ## Sentences -/

/-- Bytes of a text. -/
def bytes (t : String) : List Nat := t.toList.map Char.toNat

/-- The eight leading fields of a `$GPRMC` line and what follows them. -/
structure Sentence where
  time : List Nat
  status : List Nat
  lat : List Nat
  latDir : List Nat
  lon : List Nat
  lonDir : List Nat
  vel : List Nat
  rest : List Nat
deriving DecidableEq, Repr

/-- The text `$GPRMC`. -/
def GPRMC : List Nat := [36, 71, 80, 82, 77, 67]

/-- The line of a sentence, without its carriage return. -/
def Sentence.line (x : Sentence) : List Nat :=
  GPRMC ++ 44 :: (x.time ++ 44 :: (x.status ++ 44 :: (x.lat ++ 44 :: (x.latDir ++ 44 ::
    (x.lon ++ 44 :: (x.lonDir ++ 44 :: (x.vel ++ 44 :: x.rest)))))))

/-- A field: fewer than 20 bytes, none of them NUL, a comma or a carriage
return, so that it fits its row of `parts` with its terminator. -/
def Field (f : List Nat) : Prop :=
  f.length < 20 ∧ ∀ b ∈ f, b ≠ 0 ∧ b ≠ 44 ∧ b ≠ 13

instance (f : List Nat) : Decidable (Field f) := by
  unfold Field; infer_instance

/-- A well-formed sentence: seven fields after the `$GPRMC` token, a remainder
without carriage return, and a line that, with its carriage return, leaves
the last byte of the 300-byte buffer free. -/
def Sentence.WF (x : Sentence) : Prop :=
  Field x.time ∧ Field x.status ∧ Field x.lat ∧ Field x.latDir ∧ Field x.lon ∧
    Field x.lonDir ∧ Field x.vel ∧ (∀ b ∈ x.rest, b ≠ 13) ∧ x.line.length < 299

instance (x : Sentence) : Decidable x.WF := by
  unfold Sentence.WF; infer_instance

/-- A valid sentence: well formed, with the status `A`. -/
def Sentence.Valid (x : Sentence) : Prop := x.WF ∧ x.status = [65]

instance (x : Sentence) : Decidable x.Valid := by
  unfold Sentence.Valid; infer_instance

/-- A parser at the start of a line: the buffer index is 0, and the remainder
of the new line, with what the buffer still holds behind it from earlier lines,
has fewer than 120 commas.  The split then cuts fewer than 128 pieces, so the
counter `i` stays in the range that a `char` of either signedness holds. -/
def AtLineStart (s : GPS) (x : Sentence) : Prop :=
  s.buffer_index = 0 ∧
    x.rest.count 44 + (s.buffer.drop (x.line.length + 1)).count 44 < 120

instance (s : GPS) (x : Sentence) : Decidable (AtLineStart s x) := by
  unfold AtLineStart; infer_instance

/-- The object after the line of `x` and its carriage return. -/
def parse (s : GPS) (x : Sentence) : GPS := feed s (x.line ++ [0x0D])

/-! ## Decimal values -/

/-- The object `GPS gps` of `ATmega328-I2C-GPS.cpp` (line 69) before any byte
arrived: it has static storage and no constructor, so every member is 0. -/
def boot : GPS :=
  { latitude := ⟨0, 0, 0, 0⟩, longitude := ⟨0, 0, 0, 0⟩, time := ⟨0, 0, 0⟩, velocity := 0,
    buffer := [], buffer_index := 0, isValid := false, isComplete := false }

/-- The sentence `$GPRMC,123519,A,4807.038,N,01131.000,E,022.4,084.4,230394,003.1,W*6A`. -/
def rmcExample : Sentence :=
  { time := bytes "123519", status := bytes "A", lat := bytes "4807.038",
    latDir := bytes "N", lon := bytes "01131.000", lonDir := bytes "E",
    vel := bytes "022.4", rest := bytes "084.4,230394,003.1,W*6A" }

/-- The sentence `$GPRMC,123519,A,4807.03,N,01131.00,E,22.4,084.4,230394,003.1,W*6A`,
with the coordinates in the widths `ddmm.mm` and `dddmm.mm`. -/
def rmcNarrow : Sentence :=
  { time := bytes "123519", status := bytes "A", lat := bytes "4807.03",
    latDir := bytes "N", lon := bytes "01131.00", lonDir := bytes "E",
    vel := bytes "22.4", rest := bytes "084.4,230394,003.1,W*6A" }

/-- The sentence `$GPRMC,123519,A,4807.03,S,01131.00,W,22.4,084.4,230394,003.1,W*6A`. -/
def rmcSouthWest : Sentence :=
  { rmcNarrow with latDir := bytes "S", lonDir := bytes "W" }

/-- The sentence `$GPRMC,123519,V,4807.03,N,01131.00,E,22.4,084.4,230394,003.1,W*6A`. -/
def rmcVoid : Sentence := { rmcNarrow with status := bytes "V" }

/-! ## Runs of `appendCharacter` -/

/-- The fix record of a parser object: time, latitude, longitude, velocity,
`isValid`, `isComplete`. -/
def fixRecord (s : GPS) :
    FixTime × CoordinateComponent × CoordinateComponent × Nat × Bool × Bool :=
  (s.time, s.latitude, s.longitude, s.velocity, s.isValid, s.isComplete)

/-- The line `$GPGGA,123519,4807.038,N,01131.000,E,1,08,0.9,545.4,M,46.9,M,,*47`. -/
def ggaLine : List Nat :=
  bytes "$GPGGA,123519,4807.038,N,01131.000,E,1,08,0.9,545.4,M,46.9,M,,*47"

/-- The line `$GPRMC,123519,A`, of three fields. -/
def shortLine : List Nat := bytes "$GPRMC,123519,A"

/-! ## The scalar-map firmware (`ATmega168-GPS-I2C.c`) -/

def LAT_DEG : Nat := 0x01
def LAT_MIN : Nat := 0x02
def LAT_SEC : Nat := 0x03
def LAT_NS : Nat := 0x04
def LON_DEG : Nat := 0x11
def LON_MIN : Nat := 0x12
def LON_SEC : Nat := 0x13
def LON_EW : Nat := 0x14
def VEL_KTS : Nat := 0x20
def TIME_HR : Nat := 0x30
def TIME_MIN : Nat := 0x31
def TIME_SEC : Nat := 0x32

def DEGREE_INDEX : Nat := 0
def MINUTE_INDEX : Nat := 1
def SECONDS_INDEX : Nat := 2
def DIR_INDEX : Nat := 3

def TIME_HR_INDEX : Nat := 0
def TIME_MIN_INDEX : Nat := 1
def TIME_SEC_INDEX : Nat := 2

def kSlaveActionRead : Nat := 0
def kSlaveActionWrite : Nat := 1

/-! The TWI status codes and the bit `TWINT` come from `<compat/twi.h>` and
`<avr/io.h>`; the values are those in the comments of the interrupt routine. -/

def TW_SR_SLA_ACK : Nat := 0x60
def TW_SR_DATA_ACK : Nat := 0x80
def TW_SR_STOP : Nat := 0xA0
def TW_ST_SLA_ACK : Nat := 0xA8
def TW_ST_DATA_ACK : Nat := 0xB8
def TW_ST_DATA_NACK : Nat := 0xC0
def TW_ST_LAST_DATA : Nat := 0xC8
def TW_BUS_ERROR : Nat := 0x00
def TWINT : Nat := 7

/-- The globals of `ATmega168-GPS-I2C.c` (lines 85-92, 110-111), the static
`i2c_state` of the interrupt routine, and the TWI registers `TWDR`, `TWCR`. -/
structure ScalarFirmware where
  lat : List Nat
  lon : List Nat
  time : List Nat
  velocity : Nat
  valid_data : Nat
  serial_buffer : List Nat
  buffer_index : Nat
  regaddr : Nat
  regdata : Nat
  i2c_state : Nat
  TWDR : Nat
  TWCR : Nat
deriving DecidableEq, Repr

/-- The function `i2c_slave_action` (lines 267-310).  Line 285 ends its case
label with a semicolon and line 307 lacks one; they are read as the labels
and statements around them.  `velocity` is a `uint`, `regdata` an
`unsigned char`. -/
def i2c_slave_action (st : ScalarFirmware) (rw_status : Nat) : ScalarFirmware :=
  if rw_status = kSlaveActionWrite then st
  else if st.regaddr = LAT_DEG then { st with regdata := st.lat.getD DEGREE_INDEX 0 }
  else if st.regaddr = LAT_MIN then { st with regdata := st.lat.getD MINUTE_INDEX 0 }
  else if st.regaddr = LAT_SEC then { st with regdata := st.lat.getD SECONDS_INDEX 0 }
  else if st.regaddr = LAT_NS then { st with regdata := st.lat.getD DIR_INDEX 0 }
  else if st.regaddr = LON_DEG then { st with regdata := st.lon.getD DEGREE_INDEX 0 }
  else if st.regaddr = LON_MIN then { st with regdata := st.lon.getD MINUTE_INDEX 0 }
  else if st.regaddr = LON_SEC then { st with regdata := st.lon.getD SECONDS_INDEX 0 }
  else if st.regaddr = LON_EW then { st with regdata := st.lon.getD DIR_INDEX 0 }
  else if st.regaddr = TIME_HR then { st with regdata := st.time.getD TIME_HR_INDEX 0 }
  else if st.regaddr = TIME_MIN then { st with regdata := st.time.getD TIME_MIN_INDEX 0 }
  else if st.regaddr = TIME_SEC then { st with regdata := st.time.getD TIME_SEC_INDEX 0 }
  else if st.regaddr = VEL_KTS then { st with regdata := st.velocity % 256 }
  else st

/-- The statement `TWCR |= (1<<TWINT)`. -/
def clearTWINT (st : ScalarFirmware) : ScalarFirmware :=
  { st with TWCR := st.TWCR ||| 2 ^ TWINT }

/-- The interrupt routine `ISR(TWI_vect)` (lines 312-369), entered with the
status register at `TWSR`. -/
def TWI_vect (st : ScalarFirmware) (TWSR : Nat) : ScalarFirmware :=
  let twi_status := TWSR &&& 0xF8
  if twi_status = TW_SR_SLA_ACK then
    clearTWINT { st with i2c_state := 0 }
  else if twi_status = TW_SR_DATA_ACK then
    if st.i2c_state = 0 then
      clearTWINT { st with regaddr := st.TWDR, i2c_state := 1 }
    else
      clearTWINT { st with regdata := st.TWDR, i2c_state := 2 }
  else if twi_status = TW_SR_STOP then
    if st.i2c_state = 2 then
      clearTWINT { i2c_slave_action st 1 with i2c_state := 0 }
    else
      clearTWINT st
  else if twi_status = TW_ST_SLA_ACK ∨ twi_status = TW_ST_DATA_ACK then
    if st.i2c_state = 1 then
      let st := i2c_slave_action st 0
      clearTWINT { st with TWDR := st.regdata, i2c_state := 0 }
    else
      clearTWINT st
  else
    { clearTWINT st with i2c_state := 0 }

/-- The bus sequence of a register read: SLA+W acknowledged, the data byte `a`
received (the hardware puts it in `TWDR`), stop, SLA+R acknowledged. -/
def selectAndRead (st : ScalarFirmware) (a : Nat) : ScalarFirmware :=
  let st := TWI_vect st TW_SR_SLA_ACK
  let st := TWI_vect { st with TWDR := a } TW_SR_DATA_ACK
  let st := TWI_vect st TW_SR_STOP
  TWI_vect st TW_ST_SLA_ACK

/-- The register map as the header of `ATmega168-GPS-I2C.c` (lines 21-33) and the
specification list it: the byte that a read of the address `a` is to
deliver, `none` for an address that is not defined. -/
def registerMapSpec (st : ScalarFirmware) (a : Nat) : Option Nat :=
  if a = 0x01 then some (st.lat.getD 0 0)
  else if a = 0x02 then some (st.lat.getD 1 0)
  else if a = 0x03 then some (st.lat.getD 2 0)
  else if a = 0x04 then some (st.lat.getD 3 0)
  else if a = 0x11 then some (st.lon.getD 0 0)
  else if a = 0x12 then some (st.lon.getD 1 0)
  else if a = 0x13 then some (st.lon.getD 2 0)
  else if a = 0x14 then some (st.lon.getD 3 0)
  else if a = 0x20 then some (st.velocity % 256)
  else if a = 0x30 then some (st.time.getD 0 0)
  else if a = 0x31 then some (st.time.getD 1 0)
  else if a = 0x32 then some (st.time.getD 2 0)
  else none

/-- The twelve addresses of the scalar map. -/
def scalarAddresses : List Nat :=
  [LAT_DEG, LAT_MIN, LAT_SEC, LAT_NS, LON_DEG, LON_MIN, LON_SEC, LON_EW, VEL_KTS, TIME_HR,
    TIME_MIN, TIME_SEC]

/-- The scalar-map firmware when `main` enters its loop (lines 113-134): the
globals have static storage and start at 0, `main` sets `TWCR`, `buffer_index`
and `valid_data`. -/
def scalarBoot : ScalarFirmware :=
  { lat := [0, 0, 0, 0], lon := [0, 0, 0, 0], time := [0, 0, 0], velocity := 0,
    valid_data := 0, serial_buffer := List.replicate 300 0, buffer_index := 0,
    regaddr := 0, regdata := 0, i2c_state := 0, TWDR := 0, TWCR := 0xC5 }

/-! ## The burst-map firmware (`ATmega328-I2C-GPS.cpp`) -/

def I2C_DEBUG_CONFIRM_BYTE : Nat := 0xF0
def I2C_ERROR : Nat := 0xF2

def LAT : Nat := 0x40
def LON : Nat := 0x41
def FIX_TIME : Nat := 0x50
def DEBUG_ON : Nat := 0x60
def DEBUG_OFF : Nat := 0x61

/-- Modelled from the spec: the case label `VELOCITY` of line 134, a name the
sources never define.  The opcode table (line 49) and the specification give
the velocity register the opcode `VEL_KTS`. -/
def VELOCITY : Nat := VEL_KTS

/-- Modelled from the spec: the name `I2C_EEROR` of line 148, which the sources
never define.  The specification has an unknown address answered with the
fixed error byte, which line 45 defines as `I2C_ERROR`. -/
def I2C_EEROR : Nat := I2C_ERROR

/-- The object `gps`, the buffer `outbuffer`, and the data that the calls of
`TWI_Start_Transceiver_With_Data` handed to the transceiver, oldest first. -/
structure BurstFirmware where
  gps : GPS
  outbuffer : List Nat
  sent : List (List Nat)
deriving DecidableEq, Repr

/-- The statement `outbuffer[i] = v`. -/
def setOutbuffer (b : BurstFirmware) (i v : Nat) : BurstFirmware :=
  { b with outbuffer := pokes b.outbuffer i [v] }

/-- Modelled from the spec: `TWI_Start_Transceiver_With_Data(outbuffer, n)` of
`TWI_slave.h`, which is not among the sources.  The call hands the first `n`
bytes of the buffer to the transceiver, which delivers them in the next burst
read. -/
def TWI_Start_Transceiver_With_Data (b : BurstFirmware) (n : Nat) : BurstFirmware :=
  { b with sent := b.sent ++ [(b.outbuffer ++ List.replicate (n - b.outbuffer.length) 0).take n] }

/-- The velocity case of the opcode switch (lines 134-137). -/
def velocityCase (b : BurstFirmware) : BurstFirmware :=
  let b := setOutbuffer b 0 b.gps.velocity
  TWI_Start_Transceiver_With_Data b 1

/-- The opcode handler (lines 112-154), declared `opcode process` and called
`process_opcode`.  The case `FIX_TIME` has no `break` and runs on into the
velocity case.  The blink of lines 152-153 is left out. -/
def process_opcode (b : BurstFirmware) (opcode : Nat) : BurstFirmware :=
  if opcode = LAT then
    let b := setOutbuffer b 0 b.gps.latitude.degrees
    let b := setOutbuffer b 1 b.gps.latitude.minutes
    let b := setOutbuffer b 2 b.gps.latitude.seconds
    let b := setOutbuffer b 3 b.gps.latitude.direction
    TWI_Start_Transceiver_With_Data b 4
  else if opcode = LON then
    let b := setOutbuffer b 0 b.gps.longitude.degrees
    let b := setOutbuffer b 1 b.gps.longitude.minutes
    let b := setOutbuffer b 2 b.gps.longitude.seconds
    let b := setOutbuffer b 3 b.gps.longitude.direction
    TWI_Start_Transceiver_With_Data b 4
  else if opcode = FIX_TIME then
    let b := setOutbuffer b 0 b.gps.time.hour
    let b := setOutbuffer b 1 b.gps.time.minute
    let b := setOutbuffer b 2 b.gps.time.second
    let b := TWI_Start_Transceiver_With_Data b 3
    velocityCase b
  else if opcode = VELOCITY then
    velocityCase b
  else if opcode = DEBUG_ON then
    let b := setOutbuffer b 0 I2C_DEBUG_CONFIRM_BYTE
    TWI_Start_Transceiver_With_Data b 1
  else if opcode = DEBUG_OFF then
    let b := setOutbuffer b 0 I2C_DEBUG_CONFIRM_BYTE
    TWI_Start_Transceiver_With_Data b 1
  else
    let b := setOutbuffer b 0 I2C_EEROR
    TWI_Start_Transceiver_With_Data b 1

/-- The burst-map firmware when `main` enters its loop: `gps` and `outbuffer`
have static storage and start at 0, and nothing was handed to the transceiver. -/
def burstBoot : BurstFirmware := { gps := boot, outbuffer := [], sent := [] }

/-- A burst-map firmware whose fix holds the time 12:35:19 and the velocity 22. -/
def burstExample : BurstFirmware :=
  { gps := { boot with time := ⟨12, 35, 19⟩, velocity := 22 }, outbuffer := [], sent := [] }

/-! ## The serial input of the scalar-map firmware (`process_serial`) -/

def LAT_NORTH : Nat := 0
def LAT_SOUTH : Nat := 1
def LON_EAST : Nat := 0
def LON_WEST : Nat := 1

/-- Conversion of an `int` to the 16-bit `uint` of the target. -/
def toU16 (x : Int) : Nat := (x % 65536).toNat

/-- Lines 174-242 of `ATmega168-GPS-I2C.c`: the stores into `time`, `lat`, `lon`
and `velocity` from the table `parts`.  No field is tested for being empty.
Line 218 copies the degree digits of the longitude from
`parts[RMC_LAT_INDEX]`. -/
def storeRegisters (st : ScalarFirmware) (parts : List Nat) : ScalarFirmware :=
  let hr := strncpy (malloc 2) (parts.drop (20 * RMC_FIX_TIME + 0)) 2
  let min := strncpy (malloc 2) (parts.drop (20 * RMC_FIX_TIME + 2)) 2
  let sec := strncpy (malloc 2) (parts.drop (20 * RMC_FIX_TIME + 4)) 2
  let st := { st with time := pokes st.time TIME_HR_INDEX [toU8 (atoi hr)] }
  let st := { st with time := pokes st.time TIME_MIN_INDEX [toU8 (atoi min)] }
  let st := { st with time := pokes st.time TIME_SEC_INDEX [toU8 (atoi sec)] }
  let len := strlen (parts.drop (20 * RMC_LAT_INDEX)) % 256
  let min_dec := strncpy (malloc 2) (parts.drop (20 * RMC_LAT_INDEX + len - 2)) 2
  let min_int := strncpy (malloc 2) (parts.drop (20 * RMC_LAT_INDEX + len - 5)) 2
  let deg :=
    if len = 8 then strncpy (malloc 3) (parts.drop (20 * RMC_LAT_INDEX)) 3
    else strncpy (malloc 3) (parts.drop (20 * RMC_LAT_INDEX)) 2
  let st := { st with lat := pokes st.lat DEGREE_INDEX [toU8 (atoi deg)] }
  let st := { st with lat := pokes st.lat MINUTE_INDEX [toU8 (atoi min_int)] }
  let st := { st with lat := pokes st.lat SECONDS_INDEX [toU8 ((atoi min_dec * 6).tdiv 10)] }
  let st :=
    if arrayEqLiteral (parts.drop (20 * RMC_LAT_DIR_INDEX)) [78, 0] then
      { st with lat := pokes st.lat DIR_INDEX [LAT_NORTH] }
    else
      { st with lat := pokes st.lat DIR_INDEX [LAT_SOUTH] }
  let len := strlen (parts.drop (20 * RMC_LON_INDEX)) % 256
  let min_dec := strncpy min_dec (parts.drop (20 * RMC_LON_INDEX + len - 2)) 2
  let min_int := strncpy min_int (parts.drop (20 * RMC_LON_INDEX + len - 5)) 2
  let deg := strncpy deg (parts.drop (20 * RMC_LAT_INDEX)) (if len = 8 then 3 else 2)
  let st := { st with lon := pokes st.lon DEGREE_INDEX [toU8 (atoi deg)] }
  let st := { st with lon := pokes st.lon MINUTE_INDEX [toU8 (atoi min_int)] }
  let st := { st with lon := pokes st.lon SECONDS_INDEX [toU8 ((atoi min_dec * 6).tdiv 10)] }
  let st :=
    if assignLiteral [69, 0] then
      { st with lon := pokes st.lon DIR_INDEX [LON_EAST] }
    else
      { st with lon := pokes st.lon DIR_INDEX [LON_WEST] }
  let len := strlen (parts.drop (20 * RMC_VEL_KTS_INDEX)) % 256
  let velocity_str :=
    strncpy (malloc 3) (parts.drop (20 * RMC_VEL_KTS_INDEX)) ((len + 65536 - 2) % 65536)
  { st with velocity := toU16 (atoi velocity_str) }

/-- The function `process_serial` (lines 143-248).  The pointer `p_start` is
declared at line 153 and read by the loop without ever being assigned: the
bytes it points at are the parameter `p_start`.  `buffer_index` is a
`uint8_t`.  The two statements of lines 246-247 stand after the brace that
closes the test of line 147, so they run for every byte; the `return` of
line 171 alone would pass them by.  The pin writes to `PORTD` are left out. -/
def process_serial (p_start : List Nat) (st : ScalarFirmware) (data : Nat) :
    ScalarFirmware :=
  let st := { st with
    serial_buffer := pokes st.serial_buffer st.buffer_index [data]
    buffer_index := (st.buffer_index + 1) % 256 }
  if data = 0x0D then
    if strcmp st.serial_buffer [36, 71, 80, 82, 0] ≠ 0 then
      let parts := splitLoop (p_start.length + 1) p_start (malloc 300) 0
      if arrayEqLiteral (parts.drop (20 * RMC_VALID_INDEX)) [86, 0] then
        { st with valid_data := 0 }
      else
        let st := storeRegisters st parts
        { st with buffer_index := 0, serial_buffer := pokes st.serial_buffer 0 [0] }
    else
      { st with buffer_index := 0, serial_buffer := pokes st.serial_buffer 0 [0] }
  else
    { st with buffer_index := 0, serial_buffer := pokes st.serial_buffer 0 [0] }

/-- The firmware after the bytes `cs` went through `process_serial` one by one. -/
def feedSerial (p_start : List Nat) (st : ScalarFirmware) : List Nat → ScalarFirmware
  | [] => st
  | c :: cs => feedSerial p_start (process_serial p_start st c) cs

/-! ## The table of a line, and further sentences of the examples -/

/-- The number of commas of the C string at `p`. -/
def commaCount : List Nat → Nat
  | [] => 0
  | b :: bs => if b = 0 then 0 else if b = 44 then commaCount bs + 1 else commaCount bs

/-- A line of 17 fields. -/
def manyFields : List Nat :=
  bytes "$GPRMC,123519,A,4807.03,N,01131.00,E,22.4,084.4,230394,003.1,W,a,b,c,d,e"

/-- A line whose latitude field has 21 characters. -/
def wideField : List Nat :=
  bytes "$GPRMC,123519,A,4807.0300000000000000,N,01131.00,E,22.4,084.4,230394,003.1,W*6A"

/-- The ways in which a call of `appendCharacter` leaves the objects of the
program; what the machine does from there on is not determined by the source.
`bufferStore`: line 41 stores at `buffer[300]` or beyond.  `bufferRead`: the
loop of lines 58-70 reads on behind `buffer[299]`, for want of a NUL byte.
`tableStore`: lines 61, 62 or 67 store outside the 300 bytes of `parts`.
`tableRead`: a `strlen` of lines 79-186 reads on behind the last byte of
`parts`.  `blockStore`: line 194 stores more than the three bytes of
`velocity_str`.  `wildStore`: lines 156-158 store through `min_dec`, `min_int`
and `deg`, which only the branch of lines 115-117 sets. -/
inductive Machine.Fault where
  | bufferStore
  | bufferRead
  | tableStore
  | tableRead
  | blockStore
  | wildStore
deriving DecidableEq, Repr

/-- How a call ends: it leaves the objects of the program, or it returns. -/
inductive Machine.Outcome (α : Type) where
  | fault : Fault → Outcome α
  | done : α → Outcome α
deriving DecidableEq, Repr

/-- The value a call returns, passed through `f`. -/
def Machine.Outcome.map {α β : Type} (f : α → β) : Outcome α → Outcome β
  | .fault e => .fault e
  | .done a => .done (f a)

/-- What a call of `appendCharacter` finds in memory that the source never
sets: the value of `char i` (line 55), the 300 bytes of `parts` (line 53), and
for each block that `malloc` returns (lines 87-89, 115-117, 192) the bytes from
its address on, through the block and behind it.  A value of `i` above 127
stands for the negative value of a signed `char` as well: either way the row
lies outside the table.  The bytes of `parts` that the list does not reach
are NUL.  The list of a block holds the bytes that the call has not stored
when `atoi` reads the block: bytes of the block that no `strncpy` has reached,
and the bytes behind the block; where the list ends, a byte follows that is
neither a digit nor white space.  For `min_dec`, `min_int` and `deg`, which
are read at lines 128-130 and again at lines 161-163, these bytes are taken
to be the same both times. -/
structure Machine.Env where
  i : Nat
  parts : List Nat
  hr : List Nat
  min : List Nat
  sec : List Nat
  min_dec : List Nat
  min_int : List Nat
  deg : List Nat
  velocity_str : List Nat
deriving DecidableEq, Repr

/-- The `n` bytes of an array of which `m` lists the bytes from its start on; the
bytes that `m` does not reach are NUL, and what `m` lists beyond `n` is not
part of the array. -/
def Machine.region (n : Nat) (m : List Nat) : List Nat :=
  (m ++ List.replicate (n - m.length) 0).take n

/-- The loop of lines 58-70.  `p_start` is the buffer from the pointer to its
last byte, `parts` the 300 bytes of the table.  The pieces are stored 20 bytes
apart, as many bytes as each has: a piece of 20 bytes or more runs on into
the next row, and a store at byte 300 or beyond ends the call.  When `strchr`
finds neither a comma nor a NUL byte in the buffer it reads on behind it.
The counter `i` is not reduced modulo 256: the loop goes on only from a store
inside the table, that is with `i` below 15.  The first argument bounds the
turns of the loop; 301 turns are never used up (`machine_splitLoop_fuel`). -/
def Machine.splitLoop : Nat → List Nat → List Nat → Nat → Outcome (List Nat)
  | 0, _, _, _ => .fault .bufferRead
  | fuel + 1, p_start, parts, i =>
    match strchr 44 p_start with
    | some n =>
      if 300 ≤ 20 * i + n then .fault .tableStore
      else
        let parts := pokes parts (20 * i) (strncpyBytes p_start n)
        let parts := pokes parts (20 * i + n) [0]
        splitLoop fuel (p_start.drop (n + 1)) parts (i + 1)
    | none =>
      if 0 ∉ p_start then .fault .bufferRead
      else if 300 < 20 * i + 20 then .fault .tableStore
      else .done (pokes parts (20 * i) (strncpyBytes p_start 20))

/-- The blocks `min_dec`, `min_int`, `deg` (lines 115-117) with the bytes
behind them. -/
structure Machine.Scratch where
  min_dec : List Nat
  min_int : List Nat
  deg : List Nat
deriving DecidableEq, Repr

/-- Lines 79-103: the time of the fix.  The blocks `hr`, `min`, `sec` hold two
bytes each; `atoi` reads them and what lies behind them. -/
def Machine.storeTime (e : Env) (s : GPS) (parts : List Nat) : Outcome GPS :=
  if 0 ∉ parts.drop (20 * RMC_FIX_TIME) then .fault .tableRead
  else if strlen (parts.drop (20 * RMC_FIX_TIME)) = 0 then
    .done { s with
      time := { hour := GPS_DATA_INVALID, minute := GPS_DATA_INVALID,
                second := GPS_DATA_INVALID }
      isComplete := false }
  else
    let hr := strncpy e.hr (parts.drop (20 * RMC_FIX_TIME + 0)) 2
    let min := strncpy e.min (parts.drop (20 * RMC_FIX_TIME + 2)) 2
    let sec := strncpy e.sec (parts.drop (20 * RMC_FIX_TIME + 4)) 2
    .done { s with
      time := { hour := toU8 (atoi hr), minute := toU8 (atoi min),
                second := toU8 (atoi sec) } }

/-- Lines 106-131: the latitude.  The three blocks are allocated in this branch
only; the result holds them for lines 156-158, or `none`. -/
def Machine.storeLatitude (e : Env) (s : GPS) (parts : List Nat) :
    Outcome (GPS × Option Scratch) :=
  if 0 ∉ parts.drop (20 * RMC_LAT_INDEX) then .fault .tableRead
  else if strlen (parts.drop (20 * RMC_LAT_INDEX)) = 0 then
    .done ({ s with
       latitude := { s.latitude with
         degrees := GPS_DATA_INVALID, minutes := GPS_DATA_INVALID,
         seconds := GPS_DATA_INVALID }
       isComplete := false }, none)
  else
    let len := strlen (parts.drop (20 * RMC_LAT_INDEX)) % 256
    let min_dec := strncpy e.min_dec (parts.drop (20 * RMC_LAT_INDEX + len - 2)) 2
    let min_int := strncpy e.min_int (parts.drop (20 * RMC_LAT_INDEX + len - 5)) 2
    let deg :=
      if len = 8 then strncpy e.deg (parts.drop (20 * RMC_LAT_INDEX)) 3
      else strncpy e.deg (parts.drop (20 * RMC_LAT_INDEX)) 2
    .done ({ s with
       latitude := { s.latitude with
         degrees := toU8 (atoi deg), minutes := toU8 (atoi min_int),
         seconds := toU8 ((atoi min_dec * 6).tdiv 10) } },
     some { min_dec := min_dec, min_int := min_int, deg := deg })

/-- Lines 133-145: the latitude direction. -/
def Machine.storeLatDir (s : GPS) (parts : List Nat) : Outcome GPS :=
  if 0 ∉ parts.drop (20 * RMC_LAT_DIR_INDEX) then .fault .tableRead
  else if strlen (parts.drop (20 * RMC_LAT_DIR_INDEX)) = 0 then
    .done { s with
      latitude := { s.latitude with direction := GPS_DATA_INVALID }
      isComplete := false }
  else if arrayEqLiteral (parts.drop (20 * RMC_LAT_DIR_INDEX)) [78, 0] then
    .done { s with latitude := { s.latitude with direction := DIR_NORTH } }
  else
    .done { s with latitude := { s.latitude with direction := DIR_SOUTH } }

/-- Lines 147-168: the longitude, stored through the blocks of the latitude
branch.  Line 158 copies the degree digits from `parts[RMC_LAT_INDEX]`. -/
def Machine.storeLongitude (s : GPS) (parts : List Nat) (sc : Option Scratch) : Outcome GPS :=
  if 0 ∉ parts.drop (20 * RMC_LON_INDEX) then .fault .tableRead
  else
    let len := strlen (parts.drop (20 * RMC_LON_INDEX)) % 256
    if len = 0 then
      .done { s with
        longitude := { s.longitude with
          degrees := GPS_DATA_INVALID, minutes := GPS_DATA_INVALID,
          seconds := GPS_DATA_INVALID }
        isComplete := false }
    else
      match sc with
      | none => .fault .wildStore
      | some sc =>
        let min_dec := strncpy sc.min_dec (parts.drop (20 * RMC_LON_INDEX + len - 2)) 2
        let min_int := strncpy sc.min_int (parts.drop (20 * RMC_LON_INDEX + len - 5)) 2
        let deg := strncpy sc.deg (parts.drop (20 * RMC_LAT_INDEX)) (if len = 8 then 3 else 2)
        .done { s with
          longitude := { s.longitude with
            degrees := toU8 (atoi deg), minutes := toU8 (atoi min_int),
            seconds := toU8 ((atoi min_dec * 6).tdiv 10) } }

/-- Lines 171-181: the longitude direction. -/
def Machine.storeLonDir (s : GPS) (parts : List Nat) : Outcome GPS :=
  if 0 ∉ parts.drop (20 * RMC_LON_DIR_INDEX) then .fault .tableRead
  else if strlen (parts.drop (20 * RMC_LON_DIR_INDEX)) = 0 then
    .done { s with
      longitude := { s.longitude with direction := GPS_DATA_INVALID }
      isComplete := false }
  else if assignLiteral [69, 0] then
    .done { s with longitude := { s.longitude with direction := DIR_EAST } }
  else
    .done { s with longitude := { s.longitude with direction := DIR_WEST } }

/-- Lines 184-198: the velocity.  `len - 2` is an `int` converted to the
16-bit `size_t` of the target, and `strncpy` stores that many bytes in the
3-byte block. -/
def Machine.storeVelocity (e : Env) (s : GPS) (parts : List Nat) : Outcome GPS :=
  if 0 ∉ parts.drop (20 * RMC_VEL_KTS_INDEX) then .fault .tableRead
  else
    let len := strlen (parts.drop (20 * RMC_VEL_KTS_INDEX)) % 256
    if len = 0 then
      .done { s with velocity := GPS_DATA_INVALID, isComplete := false }
    else if 3 < (len + 65536 - 2) % 65536 then .fault .blockStore
    else
      let velocity_str :=
        strncpy e.velocity_str (parts.drop (20 * RMC_VEL_KTS_INDEX))
          ((len + 65536 - 2) % 65536)
      .done { s with velocity := toU8 (atoi velocity_str) }

/-- Lines 75-198: the stores that follow the status test, each as far as the
call gets. -/
def Machine.storeFix (e : Env) (s : GPS) (parts : List Nat) : Outcome GPS :=
  match storeTime e { s with isValid := true } parts with
  | .fault f => .fault f
  | .done s =>
  match storeLatitude e s parts with
  | .fault f => .fault f
  | .done (s, sc) =>
  match storeLatDir s parts with
  | .fault f => .fault f
  | .done s =>
  match storeLongitude s parts sc with
  | .fault f => .fault f
  | .done s =>
  match storeLonDir s parts with
  | .fault f => .fault f
  | .done s => storeVelocity e s parts

/-- The method `GPS::appendCharacter` on the machine `e`: how the call ends, with
the object after it and the value returned. -/
def Machine.appendCharacter (e : Env) (s : GPS) (c : Nat) : Outcome (GPS × Bool) :=
  if 300 ≤ s.buffer_index then .fault .bufferStore
  else
    let s := { s with
      buffer := pokes s.buffer s.buffer_index [c]
      buffer_index := (s.buffer_index + 1) % 65536 }
    if c = 0x0D then
      if strcmp s.buffer [36, 71, 80, 82, 0] ≠ 0 then
        let s := { s with isComplete := true }
        match splitLoop 301 (region 300 s.buffer) (region 300 e.parts) e.i with
        | .fault f => .fault f
        | .done parts =>
          if arrayEqLiteral (parts.drop (20 * RMC_VALID_INDEX)) [86, 0] then
            .done ({ s with isValid := false }, true)
          else
            match storeFix e s parts with
            | .fault f => .fault f
            | .done s => .done ({ s with buffer_index := 0, buffer := pokes s.buffer 0 [0] }, true)
      else
        .done ({ s with buffer_index := 0, buffer := pokes s.buffer 0 [0] }, false)
    else
      .done (s, false)

/-- The object after the bytes `cs` went through `appendCharacter` one by one. -/
def Machine.feed (e : Env) (s : GPS) : List Nat → Outcome GPS
  | [] => .done s
  | c :: cs =>
    match appendCharacter e s c with
    | .fault f => .fault f
    | .done r => feed e r.1 cs

/-- The call for the carriage return that ends the line `body`, after the calls
for the bytes of `body`. -/
def Machine.carriageReturn (e : Env) (s : GPS) (body : List Nat) : Outcome (GPS × Bool) :=
  match feed e s body with
  | .fault f => .fault f
  | .done s => appendCharacter e s 0x0D

/-- The object after the line of `x` and its carriage return. -/
def Machine.parse (e : Env) (s : GPS) (x : Sentence) : Outcome GPS :=
  (carriageReturn e s x.line).map Prod.fst

/-- The machine that holds 0 in `i` and NUL bytes wherever the source sets
nothing. -/
def Machine.calm : Env :=
  { i := 0, parts := [], hr := [], min := [], sec := [], min_dec := [], min_int := [],
    deg := [], velocity_str := [] }

/-- Row `k` of the table `T` holds the field `f` and its terminator. -/
def Machine.Holds (T : List Nat) (k : Nat) (f : List Nat) : Prop :=
  (T.drop (20 * k)).take (f.length + 1) = f ++ [0]

instance (T : List Nat) (k : Nat) (f : List Nat) : Decidable (Machine.Holds T k f) := by
  unfold Machine.Holds; infer_instance

/-- The pieces `fs`, each with a comma after it, before the text `r`. -/
def Machine.glue : List (List Nat) → List Nat → List Nat
  | [], r => r
  | f :: fs, r => f ++ 44 :: glue fs r

/-- A machine and a parser ready for the sentence `x`: `i` holds 0, the buffer
index is 0, the last byte of the buffer was never stored to and the line
leaves it free, and the remainder of the line, with what the buffer holds
behind it from earlier lines, is cut into pieces that the loop stores inside
the table. -/
def Machine.Ready (e : Env) (s : GPS) (x : Sentence) : Prop :=
  e.i = 0 ∧ s.buffer_index = 0 ∧ s.buffer.length < 300 ∧ x.line.length < 299 ∧
    20 * (8 + commaCount (x.rest ++ 13 :: s.buffer.drop (x.line.length + 1)))
      + strlen (x.rest ++ 13 :: s.buffer.drop (x.line.length + 1)) ≤ 299

instance (e : Machine.Env) (s : GPS) (x : Sentence) : Decidable (Machine.Ready e s x) := by
  unfold Machine.Ready; infer_instance

/-- The object after the line `body` went through `appendCharacter` twice, each
time with its carriage return; `e1` is what the first carriage return finds on
the machine and `e2` what the second finds. -/
def Machine.twice (e1 e2 : Env) (s : GPS) (body : List Nat) : Outcome GPS :=
  match feed e1 s (body ++ [0x0D]) with
  | .fault f => .fault f
  | .done s1 => feed e2 s1 (body ++ [0x0D])

/-- The sentence `$GPRMC,123519,A,,N,01131.00,E,22.4,084.4,230394,003.1,W*6A`: no
latitude, and a longitude. -/
def rmcNoLatitude : Sentence := { rmcNarrow with lat := [] }

/-- The sentence `$GPRMC,123519,A,,,01131.000,E,022.4,084.4,230394,003.1,W*6A`: no
latitude and no latitude direction, and a longitude. -/
def rmcNoLatitudeDir : Sentence := { rmcExample with lat := [], latDir := [] }

/-- The line `$GPRMB,A,0.66,L,003,004,4917.24,N,12309.57,W,001.3,052.5,000.5,V*20`,
whose eighth piece is `N`. -/
def rmbLine : List Nat :=
  bytes "$GPRMB,A,0.66,L,003,004,4917.24,N,12309.57,W,001.3,052.5,000.5,V*20"

/-! ## Memory lemmas -/

theorem pokes_append_at (A B bs : List Nat) :
    pokes (A ++ B) A.length bs = A ++ bs ++ B.drop bs.length := by
  unfold pokes
  have h1 : A.length - (A ++ B).length = 0 := by simp
  rw [h1]
  simp [List.take_append_eq_append_take, List.drop_append_eq_append_drop]

theorem pokes_zero (m bs : List Nat) : pokes m 0 bs = bs ++ m.drop bs.length := by
  simpa using pokes_append_at [] m bs

theorem pokes_pokes_adj (m : List Nat) (off : Nat) (a b : List Nat) :
    pokes (pokes m off a) (off + a.length) b = pokes m off (a ++ b) := by
  have hX : ((m ++ List.replicate (off - m.length) 0).take off).length = off := by
    simp; omega
  have e : pokes m off a
      = ((m ++ List.replicate (off - m.length) 0).take off ++ a)
        ++ m.drop (off + a.length) := by
    simp [pokes]
  have hl : off + a.length
      = ((m ++ List.replicate (off - m.length) 0).take off ++ a).length := by
    simp; omega
  rw [e]
  conv_lhs => rw [hl]
  rw [pokes_append_at]
  have hmin : min off (m.length + (off - m.length)) = off := by omega
  simp [pokes, Nat.add_assoc, Nat.add_comm b.length, hmin]

/-! ## Feeding a line -/

/-- Bytes other than the carriage return pile up in the buffer. -/
theorem feed_plain (line : List Nat) :
    ∀ (s : GPS) (pre tail : List Nat), s.buffer = pre ++ tail →
      s.buffer_index = pre.length → pre.length + line.length < 65536 →
      (∀ c ∈ line, c ≠ 13) →
      feed s line = { s with buffer := pre ++ line ++ tail.drop line.length,
                             buffer_index := pre.length + line.length } := by
  induction line with
  | nil =>
    intro s pre tail hb hi _ _
    cases s
    simp_all [feed]
  | cons c cs ih =>
    intro s pre tail hb hi hlen hcr
    have hc : c ≠ 13 := hcr c (by simp)
    have hstep : (appendCharacter s c).1
        = { s with buffer := (pre ++ [c]) ++ tail.drop 1,
                   buffer_index := (pre ++ [c]).length } := by
      simp only [appendCharacter, hb, hi, pokes_append_at]
      have : (pre.length + 1) % 65536 = pre.length + 1 := by
        apply Nat.mod_eq_of_lt; simp at hlen; omega
      simp [hc, this]
    simp only [feed]
    rw [ih (appendCharacter s c).1 (pre ++ [c]) (tail.drop 1) (by rw [hstep])
      (by rw [hstep]) (by simp at hlen ⊢; omega) (fun x hx => hcr x (by simp [hx]))]
    rw [hstep]
    simp [Nat.add_assoc, Nat.add_comm 1]

theorem appendCharacter_plain (s : GPS) (c : Nat) (hc : c ≠ 13) :
    appendCharacter s c
      = ({ s with buffer := pokes s.buffer s.buffer_index [c],
                  buffer_index := (s.buffer_index + 1) % 65536 }, false) := by
  simp [appendCharacter, hc]

theorem feed_run (s : GPS) (cs : List Nat) (hi : s.buffer_index = 0)
    (hcs : ∀ b ∈ cs, b ≠ 13) (hlen : cs.length < 65536) :
    feed s cs = { s with buffer := cs ++ s.buffer.drop cs.length,
                         buffer_index := cs.length } := by
  have h := feed_plain cs s [] s.buffer (by simp) (by simp [hi]) (by simpa using hlen) hcs
  simpa using h

/-! ## Strings -/

theorem strchr_field (f r : List Nat) (h : ∀ b ∈ f, b ≠ 0 ∧ b ≠ 44 ∧ b ≠ 13) :
    strchr 44 (f ++ 44 :: r) = some f.length := by
  induction f with
  | nil => simp [strchr]
  | cons b bs ih =>
    have hb := h b (by simp)
    have := ih (fun x hx => h x (by simp [hx]))
    simp [strchr, hb.1, hb.2.1, this]

theorem strncpyBytes_field (f r : List Nat) (h : ∀ b ∈ f, b ≠ 0 ∧ b ≠ 44 ∧ b ≠ 13) :
    strncpyBytes (f ++ r) f.length = f := by
  induction f with
  | nil => simp [strncpyBytes]
  | cons b bs ih =>
    have hb := h b (by simp)
    have := ih (fun x hx => h x (by simp [hx]))
    simp [strncpyBytes, hb.1, this]

theorem strchr_lt (p : List Nat) : ∀ n, strchr 44 p = some n → n < p.length := by
  induction p with
  | nil => intro n h; simp [strchr] at h
  | cons b bs ih =>
    intro n h
    by_cases hb : b = 44
    · simp [strchr, hb] at h
      subst h
      simp
    · by_cases h0 : b = 0
      · simp [strchr, hb, h0] at h
      · simp only [strchr, hb, h0, if_false] at h
        cases hs : strchr 44 bs with
        | none => simp [hs] at h
        | some k =>
          simp [hs] at h
          subst h
          have := ih k hs
          simpa using this

theorem strlen_terminated (f R : List Nat) (h : ∀ b ∈ f, b ≠ 0 ∧ b ≠ 44 ∧ b ≠ 13) :
    strlen (f ++ 0 :: R) = f.length := by
  induction f with
  | nil => simp [strlen]
  | cons b bs ih =>
    have hb := h b (by simp)
    simp [strlen, hb.1, ih (fun x hx => h x (by simp [hx]))]

theorem strncpyBytes_length (src : List Nat) (n : Nat) :
    (strncpyBytes src n).length = n := by
  induction n generalizing src with
  | zero => cases src <;> simp [strncpyBytes]
  | succ n ih =>
    cases src with
    | nil => simp [strncpyBytes]
    | cons b bs =>
      by_cases hb : b = 0
      · simp [strncpyBytes, hb]
      · simp [strncpyBytes, hb, ih]

theorem field_GPRMC : Field GPRMC := by decide

theorem strcmp_line (r : List Nat) : strcmp (GPRMC ++ r) [36, 71, 80, 82, 0] ≠ 0 := by
  simp [GPRMC, strcmp]

theorem strcmp_literal_ne (stale lit : List Nat) (hl : ∀ c ∈ lit, c ≠ 13 ∧ c ≠ 0) :
    ∀ line : List Nat, (∀ c ∈ line, c ≠ 13 ∧ c ≠ 0) →
      strcmp (line ++ 13 :: stale) (lit ++ [0]) ≠ 0 := by
  have sub : ∀ a b : Nat, a ≠ b → (a : Int) - (b : Int) ≠ 0 := by
    intro a b h; omega
  induction lit with
  | nil =>
    intro line hpl
    cases line with
    | nil => simp [strcmp]
    | cons a t =>
      have ha := (hpl a (by simp)).2
      simp [strcmp, ha]
  | cons l ls ih =>
    intro line hpl
    have hl0 := hl l (by simp)
    cases line with
    | nil =>
      have h13 : (13 : Nat) ≠ l := fun h => hl0.1 h.symm
      simp only [List.nil_append, List.cons_append, strcmp, h13, if_false]
      exact sub _ _ h13
    | cons a t =>
      have ha := (hpl a (by simp)).2
      simp only [List.cons_append, strcmp, ha, if_false]
      split_ifs with h
      · exact ih (fun c hc => hl c (by simp [hc])) t (fun c hc => hpl c (by simp [hc]))
      · exact sub _ _ h

/-- A line without NUL byte, with its carriage return, is not the string `$GPR`. -/
theorem strcmp_plain_line (line stale : List Nat) (hpl : ∀ c ∈ line, c ≠ 13 ∧ c ≠ 0) :
    strcmp (line ++ 13 :: stale) [36, 71, 80, 82, 0] ≠ 0 :=
  strcmp_literal_ne stale [36, 71, 80, 82] (by decide) line hpl

theorem commaCount_strchr (p : List Nat) :
    (strchr 44 p = none → commaCount p = 0) ∧
      (∀ n, strchr 44 p = some n → commaCount p = commaCount (p.drop (n + 1)) + 1) := by
  induction p with
  | nil => simp [strchr, commaCount]
  | cons b bs ih =>
    by_cases h44 : b = 44
    · subst h44
      simp [strchr, commaCount]
    · by_cases h0 : b = 0
      · subst h0
        simp [strchr, commaCount]
      · constructor
        · intro h
          simp only [strchr, h44, h0, if_false] at h
          cases hs : strchr 44 bs with
          | none => simpa [commaCount, h44, h0] using ih.1 hs
          | some k => simp [hs] at h
        · intro n h
          simp only [strchr, h44, h0, if_false] at h
          cases hs : strchr 44 bs with
          | none => simp [hs] at h
          | some k =>
            simp [hs] at h
            subst h
            simpa [commaCount, h44, h0] using ih.2 k hs

theorem commaCount_append (a b : List Nat) (ha : ∀ c ∈ a, c ≠ 0) :
    commaCount (a ++ b) = a.count 44 + commaCount b := by
  induction a with
  | nil => simp
  | cons c cs ih =>
    have hc := ha c (by simp)
    have := ih (fun x hx => ha x (by simp [hx]))
    by_cases h44 : c = 44
    · subst h44
      simp [commaCount, this]; omega
    · have hb : (c == 44) = false := by simpa using h44
      simp [commaCount, hc, h44, this, List.count_cons, hb]

/-! ## Numbers -/

set_option maxRecDepth 100000 in
/-- C2, at the failing input: with the latitude field `4807.03` and the longitude
field `01131.00`, `longitude.degrees` is 224, the value of the first three
characters of the latitude field; with the latitude field `1207.03` and the same
longitude field it is 120. -/
theorem longitude_degrees_read_latitude :
    rmcNarrow.Valid ∧ AtLineStart boot rmcNarrow ∧ rmcNarrow.lon = bytes "01131.00" ∧
      (parse boot rmcNarrow).longitude.degrees = 224 ∧
      (parse boot { rmcNarrow with lat := bytes "1207.03" }).longitude.degrees = 120 := by
  decide

set_option maxRecDepth 100000 in
/-- C5, at the failing input: the longitude direction field `W` leaves
`longitude.direction` at `DIR_EAST`, and the latitude direction field `N`
leaves `latitude.direction` at `DIR_SOUTH`. -/
theorem direction_west_stored_east :
    rmcSouthWest.Valid ∧ AtLineStart boot rmcSouthWest ∧
      (parse boot rmcSouthWest).longitude.direction = DIR_EAST ∧
      (parse boot rmcSouthWest).longitude.direction ≠ DIR_WEST ∧
      (parse boot rmcExample).latitude.direction = DIR_SOUTH ∧
      (parse boot rmcExample).latitude.direction ≠ DIR_NORTH := by
  decide

set_option maxRecDepth 100000 in
/-- C10, at the failing input: a sentence with the status `V` leaves `isValid` true
and stores its time, latitude, longitude and velocity over the earlier ones. -/
theorem status_V_is_parsed :
    rmcVoid.status = bytes "V" ∧ rmcVoid.WF ∧ AtLineStart boot rmcVoid ∧
      (parse boot rmcVoid).isValid = true ∧
      (parse boot rmcVoid).time = { hour := 12, minute := 35, second := 19 } ∧
      (parse boot rmcVoid).time ≠ boot.time ∧
      (parse boot rmcVoid).velocity = 22 ∧ boot.velocity = 0 := by
  decide

set_option maxRecDepth 100000 in
/-- C11, at the failing input: on the line
`$GPGGA,123519,4807.038,N,01131.000,E,1,08,0.9,545.4,M,46.9,M,,*47`
`appendCharacter` returns true on the carriage return, sets `isValid` and stores
the time 12:35:19 over the earlier one. -/
theorem gga_line_is_parsed :
    (appendCharacter (feed boot ggaLine) 13).2 = true ∧
      (appendCharacter (feed boot ggaLine) 13).1.time
        = { hour := 12, minute := 35, second := 19 } ∧
      (appendCharacter (feed boot ggaLine) 13).1.time ≠ boot.time ∧
      (appendCharacter (feed boot ggaLine) 13).1.isValid = true ∧
      boot.isValid = false := by
  decide

/-! ## The register maps -/

theorem TWI_vect_SLA_W (st : ScalarFirmware) :
    TWI_vect st TW_SR_SLA_ACK = clearTWINT { st with i2c_state := 0 } := by
  have e : (TW_SR_SLA_ACK &&& 0xF8) = TW_SR_SLA_ACK := by decide
  simp only [TWI_vect, e, if_true]

theorem TWI_vect_data (st : ScalarFirmware) :
    TWI_vect st TW_SR_DATA_ACK
      = if st.i2c_state = 0 then clearTWINT { st with regaddr := st.TWDR, i2c_state := 1 }
        else clearTWINT { st with regdata := st.TWDR, i2c_state := 2 } := by
  have e : (TW_SR_DATA_ACK &&& 0xF8) = TW_SR_DATA_ACK := by decide
  have n : TW_SR_DATA_ACK ≠ TW_SR_SLA_ACK := by decide
  simp only [TWI_vect, e, n, if_true, if_false]

theorem TWI_vect_stop (st : ScalarFirmware) :
    TWI_vect st TW_SR_STOP
      = if st.i2c_state = 2 then clearTWINT { i2c_slave_action st 1 with i2c_state := 0 }
        else clearTWINT st := by
  have e : (TW_SR_STOP &&& 0xF8) = TW_SR_STOP := by decide
  have n1 : TW_SR_STOP ≠ TW_SR_SLA_ACK := by decide
  have n2 : TW_SR_STOP ≠ TW_SR_DATA_ACK := by decide
  simp only [TWI_vect, e, n1, n2, if_true, if_false]

theorem TWI_vect_SLA_R (st : ScalarFirmware) :
    TWI_vect st TW_ST_SLA_ACK
      = if st.i2c_state = 1 then
          clearTWINT { i2c_slave_action st 0 with
            TWDR := (i2c_slave_action st 0).regdata, i2c_state := 0 }
        else clearTWINT st := by
  have e : (TW_ST_SLA_ACK &&& 0xF8) = TW_ST_SLA_ACK := by decide
  have n1 : TW_ST_SLA_ACK ≠ TW_SR_SLA_ACK := by decide
  have n2 : TW_ST_SLA_ACK ≠ TW_SR_DATA_ACK := by decide
  have n3 : TW_ST_SLA_ACK ≠ TW_SR_STOP := by decide
  simp only [TWI_vect, e, n1, n2, n3, if_true, if_false, true_or]

/-- The register read hands `TWDR` the byte that `i2c_slave_action` finds for the
address received. -/
theorem selectAndRead_TWDR (st : ScalarFirmware) (a : Nat) :
    ∃ st', st'.regaddr = a ∧ st'.regdata = st.regdata ∧ st'.lat = st.lat ∧
      st'.lon = st.lon ∧ st'.time = st.time ∧ st'.velocity = st.velocity ∧
      (selectAndRead st a).TWDR = (i2c_slave_action st' kSlaveActionRead).regdata := by
  refine ⟨clearTWINT (clearTWINT { clearTWINT { st with i2c_state := 0 } with
    TWDR := a, regaddr := a, i2c_state := 1 }), rfl, rfl, rfl, rfl, rfl, rfl, ?_⟩
  simp only [selectAndRead, TWI_vect_SLA_W, TWI_vect_data, TWI_vect_stop, TWI_vect_SLA_R]
  simp [clearTWINT]
  rfl

/-- What a read finds at an address, and that it keeps `regdata` at any address
outside the twelve of the map. -/
theorem i2c_slave_action_read (st : ScalarFirmware) (k : Nat) (hk : st.regaddr = k) :
    (i2c_slave_action st kSlaveActionRead).regdata
      = (registerMapSpec st k).getD st.regdata := by
  have hw : kSlaveActionRead ≠ kSlaveActionWrite := by decide
  subst hk
  by_cases h1 : st.regaddr = 0x01
  · simp [i2c_slave_action, registerMapSpec, hw, h1, LAT_DEG, DEGREE_INDEX]
  by_cases h2 : st.regaddr = 0x02
  · simp [i2c_slave_action, registerMapSpec, hw, h2, LAT_DEG, LAT_MIN, MINUTE_INDEX]
  by_cases h3 : st.regaddr = 0x03
  · simp [i2c_slave_action, registerMapSpec, hw, h3, LAT_DEG, LAT_MIN, LAT_SEC,
      SECONDS_INDEX]
  by_cases h4 : st.regaddr = 0x04
  · simp [i2c_slave_action, registerMapSpec, hw, h4, LAT_DEG, LAT_MIN, LAT_SEC, LAT_NS,
      DIR_INDEX]
  by_cases h5 : st.regaddr = 0x11
  · simp [i2c_slave_action, registerMapSpec, hw, h5, LAT_DEG, LAT_MIN, LAT_SEC, LAT_NS,
      LON_DEG, DEGREE_INDEX]
  by_cases h6 : st.regaddr = 0x12
  · simp [i2c_slave_action, registerMapSpec, hw, h6, LAT_DEG, LAT_MIN, LAT_SEC, LAT_NS,
      LON_DEG, LON_MIN, MINUTE_INDEX]
  by_cases h7 : st.regaddr = 0x13
  · simp [i2c_slave_action, registerMapSpec, hw, h7, LAT_DEG, LAT_MIN, LAT_SEC, LAT_NS,
      LON_DEG, LON_MIN, LON_SEC, SECONDS_INDEX]
  by_cases h8 : st.regaddr = 0x14
  · simp [i2c_slave_action, registerMapSpec, hw, h8, LAT_DEG, LAT_MIN, LAT_SEC, LAT_NS,
      LON_DEG, LON_MIN, LON_SEC, LON_EW, DIR_INDEX]
  by_cases h9 : st.regaddr = 0x30
  · simp [i2c_slave_action, registerMapSpec, hw, h9, LAT_DEG, LAT_MIN, LAT_SEC, LAT_NS,
      LON_DEG, LON_MIN, LON_SEC, LON_EW, TIME_HR, TIME_HR_INDEX]
  by_cases h10 : st.regaddr = 0x31
  · simp [i2c_slave_action, registerMapSpec, hw, h10, LAT_DEG, LAT_MIN, LAT_SEC, LAT_NS,
      LON_DEG, LON_MIN, LON_SEC, LON_EW, TIME_HR, TIME_MIN, TIME_MIN_INDEX]
  by_cases h11 : st.regaddr = 0x32
  · simp [i2c_slave_action, registerMapSpec, hw, h11, LAT_DEG, LAT_MIN, LAT_SEC, LAT_NS,
      LON_DEG, LON_MIN, LON_SEC, LON_EW, TIME_HR, TIME_MIN, TIME_SEC, TIME_SEC_INDEX]
  by_cases h12 : st.regaddr = 0x20
  · simp [i2c_slave_action, registerMapSpec, hw, h12, LAT_DEG, LAT_MIN, LAT_SEC, LAT_NS,
      LON_DEG, LON_MIN, LON_SEC, LON_EW, TIME_HR, TIME_MIN, TIME_SEC, VEL_KTS]
  simp [i2c_slave_action, registerMapSpec, hw, h1, h2, h3, h4, h5, h6, h7, h8, h9, h10,
    h11, h12, LAT_DEG, LAT_MIN, LAT_SEC, LAT_NS, LON_DEG, LON_MIN, LON_SEC, LON_EW,
    TIME_HR, TIME_MIN, TIME_SEC, VEL_KTS]

theorem registerMapSpec_congr (st st' : ScalarFirmware) (a : Nat) (h1 : st'.lat = st.lat)
    (h2 : st'.lon = st.lon) (h3 : st'.time = st.time) (h4 : st'.velocity = st.velocity) :
    registerMapSpec st' a = registerMapSpec st a := by
  simp only [registerMapSpec, h1, h2, h3, h4]

/-- C12: in the scalar-map firmware, for every register contents and every
scalar register address `a`, the status sequence SLA+W acknowledged, data
received with the byte `a`, stop, SLA+R acknowledged leaves in `TWDR` the byte
of the fix field that the register map gives `a`. -/
theorem read_delivers_mapped_field (st : ScalarFirmware) (a v : Nat)
    (h : registerMapSpec st a = some v) : (selectAndRead st a).TWDR = v := by
  obtain ⟨st', ha, _, h1, h2, h3, h4, hr⟩ := selectAndRead_TWDR st a
  rw [hr, i2c_slave_action_read st' a ha, registerMapSpec_congr st st' a h1 h2 h3 h4, h]
  rfl

theorem read_delivers_mapped_field_witness :
    registerMapSpec { scalarBoot with lat := [48, 7, 1, 0] } 0x01 = some 48 ∧
      (selectAndRead { scalarBoot with lat := [48, 7, 1, 0] } 0x01).TWDR = 48 :=
  ⟨by decide,
    read_delivers_mapped_field { scalarBoot with lat := [48, 7, 1, 0] } 0x01 48 (by decide)⟩

theorem outbuffer_four (m : List Nat) (a b c d : Nat) :
    pokes (pokes (pokes (pokes m 0 [a]) 1 [b]) 2 [c]) 3 [d] = [a, b, c, d] ++ m.drop 4 := by
  have h1 := pokes_pokes_adj m 0 [a] [b]
  have h2 := pokes_pokes_adj m 0 [a, b] [c]
  have h3 := pokes_pokes_adj m 0 [a, b, c] [d]
  simp only [List.length_cons, List.length_nil, Nat.zero_add, List.cons_append,
    List.nil_append] at h1 h2 h3
  rw [h1, h2, h3, pokes_zero]
  rfl

theorem outbuffer_three (m : List Nat) (a b c : Nat) :
    pokes (pokes (pokes m 0 [a]) 1 [b]) 2 [c] = [a, b, c] ++ m.drop 3 := by
  have h1 := pokes_pokes_adj m 0 [a] [b]
  have h2 := pokes_pokes_adj m 0 [a, b] [c]
  simp only [List.length_cons, List.length_nil, Nat.zero_add, List.cons_append,
    List.nil_append] at h1 h2
  rw [h1, h2, pokes_zero]
  rfl

/-- C13: in the burst-map firmware, for every fix record, the opcode handler
given `LAT` hands the transceiver exactly the 4 bytes of the latitude, given
`LON` exactly the 4 bytes of the longitude, and given the velocity opcode 0x20
exactly the byte of the velocity. -/
theorem burst_lat_lon_velocity (b : BurstFirmware) :
    (process_opcode b LAT).sent
        = b.sent ++ [[b.gps.latitude.degrees, b.gps.latitude.minutes,
            b.gps.latitude.seconds, b.gps.latitude.direction]] ∧
      (process_opcode b LON).sent
        = b.sent ++ [[b.gps.longitude.degrees, b.gps.longitude.minutes,
            b.gps.longitude.seconds, b.gps.longitude.direction]] ∧
      (process_opcode b 0x20).sent = b.sent ++ [[b.gps.velocity]] := by
  refine ⟨?_, ?_, ?_⟩
  · simp [process_opcode, setOutbuffer, TWI_Start_Transceiver_With_Data, outbuffer_four]
  · simp [process_opcode, setOutbuffer, TWI_Start_Transceiver_With_Data, outbuffer_four,
      LAT, LON]
  · simp [process_opcode, velocityCase, setOutbuffer, TWI_Start_Transceiver_With_Data,
      pokes_zero, LAT, LON, FIX_TIME, VELOCITY, VEL_KTS]

set_option maxRecDepth 100000 in
/-- C14, at the failing input: with the time 12:35:19 and the velocity 22, the
opcode `FIX_TIME` runs on into the velocity case; the handler ends with the
velocity in `outbuffer[0]` and a last transmission of one byte. -/
theorem fix_time_runs_into_velocity :
    (process_opcode burstExample FIX_TIME).sent = [[12, 35, 19], [22]] ∧
      (process_opcode burstExample FIX_TIME).sent.getLast? = some [22] ∧
      (process_opcode burstExample FIX_TIME).outbuffer.getD 0 0 = 22 ∧
      burstExample.gps.time.hour = 12 := by
  decide

/-- C15: in the burst-map firmware, for every opcode byte that is none of 0x20,
0x40, 0x41, 0x50, 0x60, 0x61, the opcode handler hands the transceiver exactly
one byte, the error code `I2C_ERROR` (0xF2), whatever the fix record and the
earlier contents of `outbuffer`. -/
theorem unknown_opcode_sends_error (b : BurstFirmware) (opcode : Nat)
    (h : opcode ∉ [0x20, 0x40, 0x41, 0x50, 0x60, 0x61]) :
    (process_opcode b opcode).sent = b.sent ++ [[0xF2]] ∧ I2C_ERROR = 0xF2 := by
  simp only [List.mem_cons, List.mem_singleton, List.not_mem_nil, or_false, not_or] at h
  obtain ⟨h1, h2, h3, h4, h5, h6⟩ := h
  simp [process_opcode, setOutbuffer, TWI_Start_Transceiver_With_Data, pokes_zero, LAT, LON,
    FIX_TIME, VELOCITY, VEL_KTS, DEBUG_ON, DEBUG_OFF, I2C_EEROR, I2C_ERROR, h1, h2, h3, h4,
    h5, h6]

theorem unknown_opcode_sends_error_witness :
    (0x99 : Nat) ∉ [0x20, 0x40, 0x41, 0x50, 0x60, 0x61] ∧
      (process_opcode burstExample 0x99).sent = burstExample.sent ++ [[0xF2]] ∧
      I2C_ERROR = 0xF2 :=
  ⟨by decide, unknown_opcode_sends_error burstExample 0x99 (by decide)⟩

/-- C16, at the failing input: a read of the address 0x05, which the map does not
define, delivers the byte that `regdata` held before: 0x30 after `regdata` was
0x30, 0x31 after it was 0x31. -/
theorem unknown_register_reads_stale :
    registerMapSpec scalarBoot 0x05 = none ∧
      (selectAndRead { scalarBoot with regdata := 0x30 } 0x05).TWDR = 0x30 ∧
      (selectAndRead { scalarBoot with regdata := 0x31 } 0x05).TWDR = 0x31 := by
  decide

/-- C20, counterexample: in the boot state a read of the latitude-degrees
register delivers 0, and the opcode `LAT` hands over four bytes 0; none is the
sentinel 0xFE. -/
theorem boot_read_counterexample :
    (selectAndRead scalarBoot LAT_DEG).TWDR = 0 ∧
      (selectAndRead scalarBoot LAT_DEG).TWDR ≠ GPS_DATA_INVALID ∧
      (process_opcode burstBoot LAT).sent = [[0, 0, 0, 0]] := by
  decide

/-- C20, amended: in the boot state, before any sentence has been parsed, a read
of each of the twelve scalar registers delivers the byte 0, and every byte
that the opcodes `LAT`, `LON`, `FIX_TIME` and the velocity opcode hand to the
transceiver is 0; the boot state is marked by `valid_data = 0` and by
`isValid` false. -/
theorem boot_reads_zero :
    (∀ a ∈ scalarAddresses, (selectAndRead scalarBoot a).TWDR = 0) ∧
      (∀ op ∈ [LAT, LON, FIX_TIME, VELOCITY],
        ∀ m ∈ (process_opcode burstBoot op).sent, ∀ x ∈ m, x = 0) ∧
      scalarBoot.valid_data = 0 ∧ burstBoot.gps.isValid = false := by
  decide

theorem boot_reads_zero_witness :
    LAT_DEG ∈ scalarAddresses ∧ (selectAndRead scalarBoot LAT_DEG).TWDR = 0 ∧
      (process_opcode burstBoot FIX_TIME).sent = [[0, 0, 0], [0]] :=
  ⟨by decide, boot_reads_zero.1 LAT_DEG (by decide), by decide⟩

/-! ## The line buffer has no bound -/

/-- C22, amended: for every prior value of `i2c_state`, after the interrupt routine
handles a protocol-error status (bus error 0x00, data NACK 0xC0, last data
0xC8, or any status it does not recognise) `i2c_state` is 0; after a stop
condition (0xA0) it is 0 when it was 2 and keeps its value otherwise, so the
value 1, an address received and a read to come, outlasts the stop. -/
theorem i2c_state_after_stop_or_error (st : ScalarFirmware) (TWSR : Nat) :
    (TWI_vect st TW_SR_STOP).i2c_state = (if st.i2c_state = 2 then 0 else st.i2c_state) ∧
      (TWSR &&& 0xF8 ∉ [0x60, 0x80, 0xA0, 0xA8, 0xB8] → (TWI_vect st TWSR).i2c_state = 0) := by
  constructor
  · rw [TWI_vect_stop]
    split_ifs <;> rfl
  · intro h
    simp only [List.mem_cons, List.mem_singleton, List.not_mem_nil, or_false, not_or] at h
    obtain ⟨h1, h2, h3, h4, h5⟩ := h
    simp [TWI_vect, TW_SR_SLA_ACK, TW_SR_DATA_ACK, TW_SR_STOP, TW_ST_SLA_ACK,
      TW_ST_DATA_ACK, h1, h2, h3, h4, h5, clearTWINT]

/-- C22, witness: a stop condition with `i2c_state` at 2, and the statuses 0xC0
and 0x00 with `i2c_state` at 1. -/
theorem i2c_state_after_stop_or_error_witness :
    (TWI_vect { scalarBoot with i2c_state := 2 } TW_SR_STOP).i2c_state = 0 ∧
      (0xC0 &&& 0xF8 : Nat) ∉ [0x60, 0x80, 0xA0, 0xA8, 0xB8] ∧
      (TWI_vect { scalarBoot with i2c_state := 1 } 0xC0).i2c_state = 0 ∧
      (TWI_vect { scalarBoot with i2c_state := 1 } 0x00).i2c_state = 0 :=
  ⟨(i2c_state_after_stop_or_error { scalarBoot with i2c_state := 2 } 0).1, by decide,
    (i2c_state_after_stop_or_error { scalarBoot with i2c_state := 1 } 0xC0).2 (by decide),
    (i2c_state_after_stop_or_error { scalarBoot with i2c_state := 1 } 0x00).2 (by decide)⟩

/-- C22, counterexample: a stop condition handled with `i2c_state` at 1 leaves it
at 1. -/
theorem stop_keeps_state_one :
    (TWI_vect { scalarBoot with i2c_state := 1 } TW_SR_STOP).i2c_state = 1 ∧
      (TWI_vect { scalarBoot with i2c_state := 1 } TW_SR_STOP).i2c_state ≠ 0 := by
  decide

theorem process_serial_plain (p_start : List Nat) (st : ScalarFirmware) (data : Nat)
    (h : data ≠ 0x0D) :
    process_serial p_start st data
      = { st with buffer_index := 0,
                  serial_buffer := 0 :: (pokes st.serial_buffer st.buffer_index [data]).drop 1 } := by
  simp [process_serial, h, pokes_zero]

set_option maxRecDepth 100000 in
/-- C24, at the failing input: after the two bytes `$G` went through
`process_serial` from the empty buffer, `buffer_index` is 0 and
`serial_buffer[0]` is 0. -/
theorem serial_bytes_do_not_accumulate :
    scalarBoot.buffer_index = 0 ∧
      (feedSerial [] scalarBoot (bytes "$G")).buffer_index = 0 ∧
      (feedSerial [] scalarBoot (bytes "$G")).serial_buffer.take 2 = [0, 0] ∧
      (feedSerial [] scalarBoot (bytes "$G")).serial_buffer.take 2 ≠ bytes "$G" := by
  decide

/-! ## Regions of memory -/

theorem region_short (n : Nat) (m : List Nat) (h : m.length ≤ n) :
    Machine.region n m = m ++ List.replicate (n - m.length) 0 := by
  unfold Machine.region
  rw [List.take_of_length_le]
  simp; omega

theorem region_length (n : Nat) (m : List Nat) : (Machine.region n m).length = n := by
  unfold Machine.region
  simp; omega

theorem pokes_length_eq (m : List Nat) (off : Nat) (bs : List Nat)
    (h : off + bs.length ≤ m.length) : (pokes m off bs).length = m.length := by
  simp only [pokes, List.length_append, List.length_take, List.length_replicate,
    List.length_drop]
  omega

theorem pokes_inside (m : List Nat) (off : Nat) (bs : List Nat) (h : off ≤ m.length) :
    pokes m off bs = m.take off ++ bs ++ m.drop (off + bs.length) := by
  unfold pokes
  rw [show off - m.length = 0 by omega]
  simp

theorem take_pokes (m : List Nat) (off k : Nat) (bs : List Nat) (hk : k ≤ off)
    (h : off ≤ m.length) : (pokes m off bs).take k = m.take k := by
  rw [pokes_inside m off bs h, List.append_assoc, List.take_append_of_le_length
    (by rw [List.length_take]; omega), List.take_take]
  congr 1
  omega

theorem drop_pokes (m : List Nat) (off : Nat) (bs : List Nat) (h : off ≤ m.length) :
    (pokes m off bs).drop off = bs ++ m.drop (off + bs.length) := by
  rw [pokes_inside m off bs h, List.append_assoc]
  have : off = (m.take off).length := by rw [List.length_take]; omega
  nth_rewrite 1 [this]
  rw [List.drop_left]

/-! ## Rows of the table -/

theorem holds_drop (T : List Nat) (k : Nat) (f : List Nat) (h : Machine.Holds T k f) :
    T.drop (20 * k) = f ++ 0 :: T.drop (20 * k + (f.length + 1)) := by
  unfold Machine.Holds at h
  have := List.take_append_drop (f.length + 1) (T.drop (20 * k))
  rw [h, List.drop_drop] at this
  rw [← this]
  simp [Nat.add_comm]

theorem holds_of_take (T T' : List Nat) (k m : Nat) (f : List Nat)
    (h : T'.take m = T.take m) (hm : 20 * k + (f.length + 1) ≤ m)
    (hT : Machine.Holds T k f) : Machine.Holds T' k f := by
  unfold Machine.Holds at hT ⊢
  have e : ∀ L : List Nat, (L.drop (20 * k)).take (f.length + 1)
      = ((L.take m).drop (20 * k)).take (f.length + 1) := by
    intro L
    rw [List.drop_take, List.take_take]
    congr 1
    omega
  rw [e T', h, ← e T, hT]

theorem holds_pokes (T : List Nat) (k : Nat) (f : List Nat) (h : 20 * k ≤ T.length) :
    Machine.Holds (pokes T (20 * k) (f ++ [0])) k f := by
  unfold Machine.Holds
  rw [drop_pokes T (20 * k) (f ++ [0]) h]
  have : f.length + 1 = (f ++ [0]).length := by simp
  rw [this, List.take_left]

/-! ## The split of a line on the machine -/

/-- What a comma found by `strchr` tells about the string. -/
theorem strchr_comma (q : List Nat) : ∀ n, strchr 44 q = some n →
    strlen q = n + 1 + strlen (q.drop (n + 1)) ∧ (0 ∈ q → 0 ∈ q.drop (n + 1)) := by
  induction q with
  | nil => intro n h; simp [strchr] at h
  | cons b bs ih =>
    intro n h
    by_cases hb : b = 44
    · subst hb
      simp [strchr] at h
      subst h
      simp [strlen]
      omega
    · by_cases h0 : b = 0
      · simp [strchr, hb, h0] at h
      · simp only [strchr, hb, h0, if_false] at h
        cases hs : strchr 44 bs with
        | none => simp [hs] at h
        | some k =>
          simp [hs] at h
          subst h
          obtain ⟨h1, h2⟩ := ih k hs
          refine ⟨?_, ?_⟩
          · simp only [strlen, h0, if_false, List.drop_succ_cons]
            omega
          · intro hm
            simp only [List.drop_succ_cons]
            apply h2
            simpa [Ne.symm h0] using hm

/-- A turn of the loop on a piece that a comma ends (lines 61-64): the piece is
stored whole at the start of row `i`, with its terminator. -/
theorem machine_splitLoop_step (fuel : Nat) (f r parts : List Nat) (i : Nat)
    (h : ∀ b ∈ f, b ≠ 0 ∧ b ≠ 44 ∧ b ≠ 13) (hi : 20 * i + f.length < 300) :
    Machine.splitLoop (fuel + 1) (f ++ 44 :: r) parts i
      = Machine.splitLoop fuel r (pokes parts (20 * i) (f ++ [0])) (i + 1) := by
  have hd : List.drop (f.length + 1) (f ++ 44 :: r) = r := by
    have : f.length + 1 = (f ++ [44]).length := by simp
    rw [this, show f ++ 44 :: r = (f ++ [44]) ++ r by simp, List.drop_left]
  rw [Machine.splitLoop, strchr_field f r h]
  simp only [if_neg (show ¬ 300 ≤ 20 * i + f.length by omega),
    strncpyBytes_field f (44 :: r) h, hd]
  rw [show pokes (pokes parts (20 * i) f) (20 * i + f.length) [0]
      = pokes parts (20 * i) (f ++ [0]) from pokes_pokes_adj parts (20 * i) f [0]]

/-- More fuel than the string has bytes changes nothing: the loop ends before
the fuel does. -/
theorem machine_splitLoop_fuel (fuel : Nat) : ∀ (q parts : List Nat) (i : Nat),
    q.length < fuel →
    Machine.splitLoop (fuel + 1) q parts i = Machine.splitLoop fuel q parts i := by
  induction fuel with
  | zero => intro q parts i h; omega
  | succ fuel ih =>
    intro q parts i hf
    show Machine.splitLoop (fuel + 1 + 1) q parts i = Machine.splitLoop (fuel + 1) q parts i
    simp only [Machine.splitLoop]
    cases hs : strchr 44 q with
    | none => rfl
    | some n =>
      have hn := strchr_lt q n hs
      simp only
      by_cases hst : 300 ≤ 20 * i + n
      · simp only [if_pos hst]
      · simp only [if_neg hst]
        exact ih _ _ _ (by rw [List.length_drop]; omega)

/-- The loop on a string that fits: the pieces are stored inside the table, from
row `i` on, and the rows before row `i` keep what they held. -/
theorem machine_splitLoop_frame (fuel : Nat) : ∀ (q parts : List Nat) (i : Nat),
    parts.length = 300 → q.length < fuel → 0 ∈ q →
    20 * (i + commaCount q) + strlen q ≤ 299 →
    ∃ T, Machine.splitLoop fuel q parts i = .done T ∧ T.length = 300 ∧
      T.take (20 * i) = parts.take (20 * i) := by
  induction fuel with
  | zero => intro q parts i _ h; omega
  | succ fuel ih =>
    intro q parts i hp hf h0 hfit
    rw [Machine.splitLoop]
    cases hs : strchr 44 q with
    | none =>
      have hc := (commaCount_strchr q).1 hs
      rw [hc] at hfit
      simp only [h0, not_true_eq_false, if_false,
        if_neg (show ¬ 300 < 20 * i + 20 by omega)]
      refine ⟨_, rfl, ?_, ?_⟩
      · rw [pokes_length_eq _ _ _ (by rw [strncpyBytes_length]; omega), hp]
      · exact take_pokes _ _ _ _ (Nat.le_refl _) (by omega)
    | some n =>
      have hc := (commaCount_strchr q).2 n hs
      obtain ⟨hl, hm⟩ := strchr_comma q n hs
      have hn := strchr_lt q n hs
      simp only [if_neg (show ¬ 300 ≤ 20 * i + n by omega)]
      have l1 : (pokes parts (20 * i) (strncpyBytes q n)).length = 300 := by
        rw [pokes_length_eq _ _ _ (by rw [strncpyBytes_length]; omega), hp]
      have l2 : (pokes (pokes parts (20 * i) (strncpyBytes q n)) (20 * i + n) [0]).length
          = 300 := by
        rw [pokes_length_eq _ _ _ (by rw [l1]; simp; omega), l1]
      obtain ⟨T, hT, hTl, hTt⟩ := ih (q.drop (n + 1))
        (pokes (pokes parts (20 * i) (strncpyBytes q n)) (20 * i + n) [0]) (i + 1) l2
        (by rw [List.length_drop]; omega) (hm h0) (by omega)
      refine ⟨T, hT, hTl, ?_⟩
      have := congrArg (List.take (20 * i)) hTt
      rw [List.take_take, List.take_take, Nat.min_eq_left (by omega)] at this
      rw [this, take_pokes _ _ _ _ (by omega) (by omega),
        take_pokes _ _ _ _ (Nat.le_refl _) (by omega)]

/-- The loop on a line that begins with the fields `fs`: each of them is in
the row of its number, with its terminator. -/
theorem machine_splitLoop_glue (fs : List (List Nat)) :
    ∀ (fuel : Nat) (r parts : List Nat) (i : Nat),
    (∀ f ∈ fs, Field f) → parts.length = 300 → r.length < fuel → 0 ∈ r →
    20 * (i + fs.length + commaCount r) + strlen r ≤ 299 →
    ∃ T, Machine.splitLoop (fuel + fs.length) (Machine.glue fs r) parts i = .done T ∧
      T.length = 300 ∧ T.take (20 * i) = parts.take (20 * i) ∧
      ∀ j f, fs[j]? = some f → Machine.Holds T (i + j) f := by
  induction fs with
  | nil =>
    intro fuel r parts i _ hp hf h0 hfit
    obtain ⟨T, hT, hTl, hTt⟩ := machine_splitLoop_frame fuel r parts i hp hf h0
      (by simpa using hfit)
    exact ⟨T, hT, hTl, hTt, fun j f h => by simp at h⟩
  | cons f fs ih =>
    intro fuel r parts i hfs hp hf h0 hfit
    have hF : Field f := hfs f (by simp)
    have hlen : f.length < 20 := hF.1
    simp only [List.length_cons] at hfit
    have l1 : (pokes parts (20 * i) (f ++ [0])).length = 300 := by
      rw [pokes_length_eq _ _ _ (by simp; omega), hp]
    obtain ⟨T, hT, hTl, hTt, hH⟩ := ih fuel r (pokes parts (20 * i) (f ++ [0])) (i + 1)
      (fun g hg => hfs g (by simp [hg])) l1 hf h0 (by omega)
    refine ⟨T, ?_, hTl, ?_, ?_⟩
    · show Machine.splitLoop (fuel + fs.length + 1) (f ++ 44 :: Machine.glue fs r) parts i = _
      rw [machine_splitLoop_step _ f _ parts i hF.2 (by omega)]
      exact hT
    · have := congrArg (List.take (20 * i)) hTt
      rw [List.take_take, List.take_take, Nat.min_eq_left (by omega)] at this
      rw [this, take_pokes _ _ _ _ (Nat.le_refl _) (by omega)]
    · intro j g hj
      cases j with
      | zero =>
        simp at hj
        subst hj
        exact holds_of_take _ T i (20 * (i + 1)) f hTt (by omega)
          (holds_pokes parts i f (by omega))
      | succ j =>
        simp at hj
        have := hH j g hj
        rwa [show i + 1 + j = i + (j + 1) by omega] at this

/-! ## The calls of a line on the machine -/

/-- A byte other than the carriage return, stored inside the buffer: the call on
the machine is the call of `appendCharacter`. -/
theorem machine_appendCharacter_byte (e : Machine.Env) (s : GPS) (c : Nat)
    (hi : s.buffer_index < 300) (hc : c ≠ 13) :
    Machine.appendCharacter e s c = .done (appendCharacter s c) := by
  simp [Machine.appendCharacter, appendCharacter, hc, Nat.not_le.2 hi]

theorem machine_feed_plain (e : Machine.Env) (line : List Nat) :
    ∀ s : GPS, s.buffer_index + line.length ≤ 300 → (∀ c ∈ line, c ≠ 13) →
      Machine.feed e s line = .done (feed s line) := by
  induction line with
  | nil => intro s _ _; rfl
  | cons c cs ih =>
    intro s hlen hcr
    have hc : c ≠ 13 := hcr c (by simp)
    simp only [List.length_cons] at hlen
    have hstep := appendCharacter_plain s c hc
    have hidx : (appendCharacter s c).1.buffer_index = s.buffer_index + 1 := by
      rw [hstep]; exact Nat.mod_eq_of_lt (by omega)
    rw [Machine.feed, machine_appendCharacter_byte e s c (by omega) hc]
    simp only [feed]
    exact ih _ (by omega) (fun x hx => hcr x (by simp [hx]))

/-- The carriage return that ends a line begun at buffer index 0, on the
machine. -/
theorem machine_carriageReturn_line (e : Machine.Env) (s : GPS) (line : List Nat)
    (hi : s.buffer_index = 0) (hcr : ∀ c ∈ line, c ≠ 13) (hlen : line.length < 300) :
    Machine.carriageReturn e s line
      = if strcmp (line ++ 13 :: s.buffer.drop (line.length + 1)) [36, 71, 80, 82, 0] ≠ 0 then
          match Machine.splitLoop 301
              (Machine.region 300 (line ++ 13 :: s.buffer.drop (line.length + 1)))
              (Machine.region 300 e.parts) e.i with
          | .fault f => .fault f
          | .done parts =>
            match Machine.storeFix e
                { s with buffer := line ++ 13 :: s.buffer.drop (line.length + 1),
                         buffer_index := line.length + 1, isComplete := true } parts with
            | .fault f => .fault f
            | .done g => .done ({ g with buffer_index := 0, buffer := pokes g.buffer 0 [0] }, true)
        else
          .done ({ s with buffer_index := 0,
                          buffer := pokes (line ++ 13 :: s.buffer.drop (line.length + 1)) 0 [0] },
            false) := by
  have hfeed := feed_run s line hi hcr (by omega)
  have hB : pokes (line ++ s.buffer.drop line.length) line.length [13]
      = line ++ 13 :: s.buffer.drop (line.length + 1) := by
    simp only [pokes_append_at, List.length_singleton, List.drop_drop]
    simp [Nat.add_comm]
  rw [Machine.carriageReturn, machine_feed_plain e line s (by omega) hcr, hfeed]
  simp only [Machine.appendCharacter, hB, if_neg (show ¬ 300 ≤ line.length by omega),
    if_true, arrayEqLiteral, Bool.false_eq_true, if_false,
    Nat.mod_eq_of_lt (show line.length + 1 < 65536 by omega)]

/-! ## What each store leaves alone -/

theorem machine_storeTime_frame (e : Machine.Env) (s g : GPS) (T : List Nat)
    (h : Machine.storeTime e s T = .done g) :
    g.latitude = s.latitude ∧ g.longitude = s.longitude ∧ g.velocity = s.velocity ∧
      g.buffer = s.buffer ∧ g.buffer_index = s.buffer_index ∧ g.isValid = s.isValid := by
  simp only [Machine.storeTime] at h
  split_ifs at h <;> (cases h; simp)

theorem machine_storeLatitude_frame (e : Machine.Env) (s g : GPS) (T : List Nat)
    (sc : Option Machine.Scratch) (h : Machine.storeLatitude e s T = .done (g, sc)) :
    g.time = s.time ∧ g.longitude = s.longitude ∧ g.velocity = s.velocity ∧
      g.buffer = s.buffer ∧ g.buffer_index = s.buffer_index ∧ g.isValid = s.isValid ∧
      g.latitude.direction = s.latitude.direction := by
  simp only [Machine.storeLatitude] at h
  split_ifs at h <;> (cases h; simp)

theorem machine_storeLatDir_frame (s g : GPS) (T : List Nat)
    (h : Machine.storeLatDir s T = .done g) :
    g.time = s.time ∧ g.longitude = s.longitude ∧ g.velocity = s.velocity ∧
      g.buffer = s.buffer ∧ g.buffer_index = s.buffer_index ∧ g.isValid = s.isValid ∧
      g.latitude.degrees = s.latitude.degrees ∧ g.latitude.minutes = s.latitude.minutes ∧
      g.latitude.seconds = s.latitude.seconds := by
  simp only [Machine.storeLatDir] at h
  split_ifs at h <;> (cases h; simp)

theorem machine_storeLongitude_frame (s g : GPS) (T : List Nat)
    (sc : Option Machine.Scratch) (h : Machine.storeLongitude s T sc = .done g) :
    g.time = s.time ∧ g.latitude = s.latitude ∧ g.velocity = s.velocity ∧
      g.buffer = s.buffer ∧ g.buffer_index = s.buffer_index ∧ g.isValid = s.isValid ∧
      g.longitude.direction = s.longitude.direction := by
  simp only [Machine.storeLongitude] at h
  cases sc <;> (simp only [] at h; split_ifs at h <;> (cases h; simp))

theorem machine_storeLonDir_frame (s g : GPS) (T : List Nat)
    (h : Machine.storeLonDir s T = .done g) :
    g.time = s.time ∧ g.latitude = s.latitude ∧ g.velocity = s.velocity ∧
      g.buffer = s.buffer ∧ g.buffer_index = s.buffer_index ∧ g.isValid = s.isValid ∧
      g.longitude.degrees = s.longitude.degrees ∧
      g.longitude.minutes = s.longitude.minutes ∧
      g.longitude.seconds = s.longitude.seconds := by
  simp only [Machine.storeLonDir] at h
  split_ifs at h <;> (cases h; simp)

theorem machine_storeVelocity_frame (e : Machine.Env) (s g : GPS) (T : List Nat)
    (h : Machine.storeVelocity e s T = .done g) :
    g.time = s.time ∧ g.latitude = s.latitude ∧ g.longitude = s.longitude ∧
      g.buffer = s.buffer ∧ g.buffer_index = s.buffer_index ∧ g.isValid = s.isValid := by
  simp only [Machine.storeVelocity] at h
  split_ifs at h <;> (cases h; simp)

/-- The stores of lines 75-198, one after the other. -/
theorem machine_storeFix_done (e : Machine.Env) (s g : GPS) (T : List Nat)
    (h : Machine.storeFix e s T = .done g) :
    ∃ (s1 s2 s3 s4 s5 : GPS) (sc : Option Machine.Scratch),
      Machine.storeTime e { s with isValid := true } T = .done s1 ∧
      Machine.storeLatitude e s1 T = .done (s2, sc) ∧
      Machine.storeLatDir s2 T = .done s3 ∧
      Machine.storeLongitude s3 T sc = .done s4 ∧
      Machine.storeLonDir s4 T = .done s5 ∧
      Machine.storeVelocity e s5 T = .done g := by
  unfold Machine.storeFix at h
  cases h1 : Machine.storeTime e { s with isValid := true } T with
  | fault f => simp [h1] at h
  | done s1 =>
    cases h2 : Machine.storeLatitude e s1 T with
    | fault f => simp [h1, h2] at h
    | done r =>
      obtain ⟨s2, sc⟩ := r
      cases h3 : Machine.storeLatDir s2 T with
      | fault f => simp [h1, h2, h3] at h
      | done s3 =>
        cases h4 : Machine.storeLongitude s3 T sc with
        | fault f => simp [h1, h2, h3, h4] at h
        | done s4 =>
          cases h5 : Machine.storeLonDir s4 T with
          | fault f => simp [h1, h2, h3, h4, h5] at h
          | done s5 =>
            simp only [h1, h2, h3, h4, h5] at h
            exact ⟨s1, s2, s3, s4, s5, sc, rfl, h2, h3, h4, h5, h⟩

theorem machine_storeFix_chain (e : Machine.Env) (s s1 s2 s3 s4 s5 g : GPS) (T : List Nat)
    (sc : Option Machine.Scratch)
    (h1 : Machine.storeTime e { s with isValid := true } T = .done s1)
    (h2 : Machine.storeLatitude e s1 T = .done (s2, sc))
    (h3 : Machine.storeLatDir s2 T = .done s3)
    (h4 : Machine.storeLongitude s3 T sc = .done s4)
    (h5 : Machine.storeLonDir s4 T = .done s5)
    (h6 : Machine.storeVelocity e s5 T = .done g) :
    Machine.storeFix e s T = .done g := by
  unfold Machine.storeFix
  simp only [h1, h2, h3, h4, h5, h6]

/-- The stores of lines 75-198 set `isValid` and leave the buffer alone. -/
theorem machine_storeFix_frame (e : Machine.Env) (s g : GPS) (T : List Nat)
    (h : Machine.storeFix e s T = .done g) :
    g.isValid = true ∧ g.buffer = s.buffer ∧ g.buffer_index = s.buffer_index := by
  obtain ⟨s1, s2, s3, s4, s5, sc, h1, h2, h3, h4, h5, h6⟩ := machine_storeFix_done e s g T h
  have f1 := machine_storeTime_frame e _ s1 T h1
  have f2 := machine_storeLatitude_frame e s1 s2 T sc h2
  have f3 := machine_storeLatDir_frame s2 s3 T h3
  have f4 := machine_storeLongitude_frame s3 s4 T sc h4
  have f5 := machine_storeLonDir_frame s4 s5 T h5
  have f6 := machine_storeVelocity_frame e s5 g T h6
  refine ⟨?_, ?_, ?_⟩
  · rw [f6.2.2.2.2.2, f5.2.2.2.2.2.1, f4.2.2.2.2.2.1, f3.2.2.2.2.2.1, f2.2.2.2.2.2.1,
      f1.2.2.2.2.2]
  · rw [f6.2.2.2.1, f5.2.2.2.1, f4.2.2.2.1, f3.2.2.2.1, f2.2.2.2.1, f1.2.2.2.1]
  · rw [f6.2.2.2.2.1, f5.2.2.2.2.1, f4.2.2.2.2.1, f3.2.2.2.2.1, f2.2.2.2.2.1, f1.2.2.2.2.1]

/-! ## Reading a row -/

theorem holds_mem (T : List Nat) (k : Nat) (f : List Nat) (h : Machine.Holds T k f) :
    0 ∈ T.drop (20 * k) := by
  rw [holds_drop T k f h]; simp

theorem holds_strlen (T : List Nat) (k : Nat) (f : List Nat) (h : Machine.Holds T k f)
    (hf : Field f) : strlen (T.drop (20 * k)) = f.length := by
  rw [holds_drop T k f h]; exact strlen_terminated f _ hf.2

/-- On a row that holds a field the store of the time returns. -/
theorem machine_storeTime_runs (e : Machine.Env) (s : GPS) (T t : List Nat)
    (h : Machine.Holds T RMC_FIX_TIME t) : ∃ g, Machine.storeTime e s T = .done g := by
  have hm := holds_mem T _ t h
  unfold Machine.storeTime
  simp only [hm, not_true_eq_false, if_false]
  split_ifs <;> exact ⟨_, rfl⟩

theorem machine_storeLatDir_row (s : GPS) (T f : List Nat)
    (h : Machine.Holds T RMC_LAT_DIR_INDEX f) (hf : Field f) :
    Machine.storeLatDir s T
      = .done (if f = [] then
          { s with latitude := { s.latitude with direction := GPS_DATA_INVALID },
                   isComplete := false }
        else { s with latitude := { s.latitude with direction := DIR_SOUTH } }) := by
  have hm := holds_mem T _ _ h
  have hl := holds_strlen T _ _ h hf
  unfold Machine.storeLatDir
  simp only [hm, not_true_eq_false, if_false, hl, arrayEqLiteral, Bool.false_eq_true,
    List.length_eq_zero]
  split_ifs <;> rfl

theorem machine_storeLonDir_row (s : GPS) (T f : List Nat)
    (h : Machine.Holds T RMC_LON_DIR_INDEX f) (hf : Field f) :
    Machine.storeLonDir s T
      = .done (if f = [] then
          { s with longitude := { s.longitude with direction := GPS_DATA_INVALID },
                   isComplete := false }
        else { s with longitude := { s.longitude with direction := DIR_EAST } }) := by
  have hm := holds_mem T _ _ h
  have hl := holds_strlen T _ _ h hf
  unfold Machine.storeLonDir
  simp only [hm, not_true_eq_false, if_false, hl, assignLiteral, if_true,
    List.length_eq_zero]
  split_ifs <;> rfl

/-- Lines 147-168 with the blocks of the latitude: the call goes on, whatever
the longitude field holds. -/
theorem machine_storeLongitude_runs (s : GPS) (T lon : List Nat) (sc : Machine.Scratch)
    (h : Machine.Holds T RMC_LON_INDEX lon) :
    ∃ g, Machine.storeLongitude s T (some sc) = .done g := by
  have hm := holds_mem T _ _ h
  unfold Machine.storeLongitude
  simp only [hm, not_true_eq_false, if_false]
  split_ifs <;> exact ⟨_, rfl⟩

theorem machine_storeVelocity_empty (e : Machine.Env) (s : GPS) (T : List Nat)
    (h : Machine.Holds T RMC_VEL_KTS_INDEX []) :
    Machine.storeVelocity e s T
      = .done { s with velocity := GPS_DATA_INVALID, isComplete := false } := by
  have hm := holds_mem T _ _ h
  have hl := holds_strlen T _ _ h (by decide)
  unfold Machine.storeVelocity
  simp only [hm, not_true_eq_false, if_false, hl, List.length_nil, Nat.zero_mod, if_true]

/-! ## The carriage return of a sentence on the machine -/

theorem line_plain (x : Sentence) (hx : x.WF) : ∀ c ∈ x.line, c ≠ 13 := by
  obtain ⟨ht, hst, hla, hld, hlo, hlod, hv, hr, _⟩ := hx
  intro c hc
  simp only [Sentence.line, List.mem_append, List.mem_cons] at hc
  have h13 : (13 : Nat) ≠ 44 := by decide
  rcases hc with hc | hc | hc | hc | hc | hc | hc | hc | hc | hc | hc | hc | hc | hc |
    hc | hc | hc
  · exact (field_GPRMC.2 c hc).2.2
  · exact hc ▸ (by decide)
  · exact (ht.2 c hc).2.2
  · exact hc ▸ (by decide)
  · exact (hst.2 c hc).2.2
  · exact hc ▸ (by decide)
  · exact (hla.2 c hc).2.2
  · exact hc ▸ (by decide)
  · exact (hld.2 c hc).2.2
  · exact hc ▸ (by decide)
  · exact (hlo.2 c hc).2.2
  · exact hc ▸ (by decide)
  · exact (hlod.2 c hc).2.2
  · exact hc ▸ (by decide)
  · exact (hv.2 c hc).2.2
  · exact hc ▸ (by decide)
  · exact hr c hc

theorem glue_append (fs : List (List Nat)) (r Z : List Nat) :
    Machine.glue fs r ++ Z = Machine.glue fs (r ++ Z) := by
  induction fs with
  | nil => rfl
  | cons f fs ih => simp [Machine.glue, ih]

theorem glue_length (fs : List (List Nat)) (r : List Nat) :
    fs.length + r.length ≤ (Machine.glue fs r).length := by
  induction fs with
  | nil => simp [Machine.glue]
  | cons f fs ih => simp [Machine.glue]; omega

/-- The NUL bytes behind a string change neither its length nor its commas. -/
theorem pad_string (q Z : List Nat) :
    strlen (q ++ 0 :: Z) = strlen q ∧ commaCount (q ++ 0 :: Z) = commaCount q := by
  induction q with
  | nil => simp [strlen, commaCount]
  | cons b bs ih =>
    by_cases h0 : b = 0
    · simp [strlen, commaCount, h0]
    · by_cases h44 : b = 44
      · simp [strlen, commaCount, h0, h44, ih.1, ih.2]
      · simp [strlen, commaCount, h0, h44, ih.1, ih.2]

/-- The carriage return of a well-formed sentence on a machine that is ready
for it: the loop stores the fields in the rows of their numbers, inside the
table, and the stores of lines 75-198 run on that table. -/
theorem machine_carriageReturn_sentence (e : Machine.Env) (s : GPS) (x : Sentence)
    (hx : x.WF) (hr : Machine.Ready e s x) :
    ∃ T, Machine.Holds T RMC_FIX_TIME x.time ∧ Machine.Holds T RMC_LAT_INDEX x.lat ∧
      Machine.Holds T RMC_LAT_DIR_INDEX x.latDir ∧ Machine.Holds T RMC_LON_INDEX x.lon ∧
      Machine.Holds T RMC_LON_DIR_INDEX x.lonDir ∧
      Machine.Holds T RMC_VEL_KTS_INDEX x.vel ∧
      Machine.carriageReturn e s x.line
        = match Machine.storeFix e
              { s with buffer := x.line ++ 13 :: s.buffer.drop (x.line.length + 1),
                       buffer_index := x.line.length + 1, isComplete := true } T with
          | .fault f => .fault f
          | .done g => .done ({ g with buffer_index := 0, buffer := pokes g.buffer 0 [0] }, true) := by
  obtain ⟨hi0, hi, hb, hl, hfit⟩ := hr
  have hplain := line_plain x hx
  obtain ⟨ht, hst, hla, hld, hlo, hlod, hv, _, _⟩ := hx
  have hBl : (x.line ++ 13 :: s.buffer.drop (x.line.length + 1)).length < 300 := by
    simp only [List.length_append, List.length_cons, List.length_drop]
    omega
  obtain ⟨n, hn⟩ : ∃ n, 300 - (x.line ++ 13 :: s.buffer.drop (x.line.length + 1)).length
      = n + 1 := ⟨_, (Nat.succ_pred_eq_of_pos (by omega)).symm⟩
  have hreg : Machine.region 300 (x.line ++ 13 :: s.buffer.drop (x.line.length + 1))
      = Machine.glue [GPRMC, x.time, x.status, x.lat, x.latDir, x.lon, x.lonDir, x.vel]
          ((x.rest ++ 13 :: s.buffer.drop (x.line.length + 1)) ++ 0 :: List.replicate n 0) := by
    rw [region_short _ _ (by omega), hn, List.replicate_succ, ← glue_append]
    simp [Machine.glue, Sentence.line]
  have hpad := pad_string (x.rest ++ 13 :: s.buffer.drop (x.line.length + 1))
    (List.replicate n 0)
  have hrl : ((x.rest ++ 13 :: s.buffer.drop (x.line.length + 1)) ++ 0 :: List.replicate n 0).length
      < 293 := by
    have h1 := glue_length [GPRMC, x.time, x.status, x.lat, x.latDir, x.lon, x.lonDir, x.vel]
      ((x.rest ++ 13 :: s.buffer.drop (x.line.length + 1)) ++ 0 :: List.replicate n 0)
    rw [← hreg, region_length] at h1
    simp only [List.length_cons, List.length_nil] at h1
    omega
  obtain ⟨T, hT, _, _, hH⟩ := machine_splitLoop_glue
    [GPRMC, x.time, x.status, x.lat, x.latDir, x.lon, x.lonDir, x.vel] 293
    ((x.rest ++ 13 :: s.buffer.drop (x.line.length + 1)) ++ 0 :: List.replicate n 0)
    (Machine.region 300 e.parts) 0
    (by
      intro f hf
      simp only [List.mem_cons, List.mem_singleton, List.not_mem_nil, or_false] at hf
      rcases hf with rfl | rfl | rfl | rfl | rfl | rfl | rfl | rfl
      · exact field_GPRMC
      all_goals assumption)
    (region_length _ _) hrl (by simp)
    (by rw [hpad.1, hpad.2]; simpa using hfit)
  refine ⟨T, ?_, ?_, ?_, ?_, ?_, ?_, ?_⟩
  · simpa [RMC_FIX_TIME] using hH 1 x.time rfl
  · simpa [RMC_LAT_INDEX] using hH 3 x.lat rfl
  · simpa [RMC_LAT_DIR_INDEX] using hH 4 x.latDir rfl
  · simpa [RMC_LON_INDEX] using hH 5 x.lon rfl
  · simpa [RMC_LON_DIR_INDEX] using hH 6 x.lonDir rfl
  · simpa [RMC_VEL_KTS_INDEX] using hH 7 x.vel rfl
  · have hne : strcmp (x.line ++ 13 :: s.buffer.drop (x.line.length + 1))
        [36, 71, 80, 82, 0] ≠ 0 := by
      rw [Sentence.line, List.append_assoc]; exact strcmp_line _
    rw [machine_carriageReturn_line e s x.line hi hplain (by omega), if_pos hne, hreg, hi0]
    rw [show (301 : Nat) = 293 + [GPRMC, x.time, x.status, x.lat, x.latDir, x.lon, x.lonDir,
      x.vel].length from rfl, hT]

theorem machine_storeLatitude_empty (e : Machine.Env) (s : GPS) (T : List Nat)
    (h : Machine.Holds T RMC_LAT_INDEX []) :
    ∃ g, Machine.storeLatitude e s T = .done (g, none) := by
  have hm := holds_mem T _ _ h
  have hl := holds_strlen T _ _ h (by decide)
  unfold Machine.storeLatitude
  simp only [hm, not_true_eq_false, if_false, hl, List.length_nil, if_true]
  exact ⟨_, rfl⟩

/-- Lines 156-158 when the latitude field was empty: the blocks were never
allocated, and the stores go through pointers that were never set. -/
theorem machine_storeLongitude_wild (s : GPS) (T lon : List Nat)
    (h : Machine.Holds T RMC_LON_INDEX lon) (hf : Field lon) (hne : lon ≠ []) :
    Machine.storeLongitude s T none = .fault .wildStore := by
  have hm := holds_mem T _ _ h
  have hl := holds_strlen T _ _ h hf
  have hmod : lon.length % 256 = lon.length := Nat.mod_eq_of_lt (by have := hf.1; omega)
  have hn : lon.length ≠ 0 := by simpa [List.length_eq_zero] using hne
  unfold Machine.storeLongitude
  simp only [hm, not_true_eq_false, if_false, hl, hmod, if_neg hn]

/-- A well-formed sentence without latitude and with a longitude, on every
machine that is ready for it: the call for the carriage return does not return,
it stores through the pointers `min_dec`, `min_int`, `deg` that line 115-117
never set. -/
theorem empty_latitude_wild_store (e : Machine.Env) (s : GPS) (x : Sentence) (hx : x.WF)
    (hr : Machine.Ready e s x) (hlat : x.lat = []) (hlon : x.lon ≠ []) :
    Machine.carriageReturn e s x.line = .fault .wildStore := by
  obtain ⟨T, hT1, hT3, hT4, hT5, _, _, hcr⟩ := machine_carriageReturn_sentence e s x hx hr
  obtain ⟨s1, h1⟩ := machine_storeTime_runs e
    { s with buffer := x.line ++ 13 :: s.buffer.drop (x.line.length + 1),
             buffer_index := x.line.length + 1, isComplete := true, isValid := true } T _ hT1
  rw [hlat] at hT3
  obtain ⟨s2, h2⟩ := machine_storeLatitude_empty e s1 T hT3
  have h3 := machine_storeLatDir_row s2 T _ hT4 hx.2.2.2.1
  have h4 := machine_storeLongitude_wild
    (if x.latDir = [] then
        { s2 with latitude := { s2.latitude with direction := GPS_DATA_INVALID },
                  isComplete := false }
      else { s2 with latitude := { s2.latitude with direction := DIR_SOUTH } })
    T _ hT5 hx.2.2.2.2.1 hlon
  rw [hcr]
  unfold Machine.storeFix
  simp only [h1, h2, h3, h4]

theorem machine_storeLongitude_goes (s : GPS) (T lon : List Nat)
    (sc : Option Machine.Scratch) (h : Machine.Holds T RMC_LON_INDEX lon) (hf : Field lon)
    (hsc : sc = none → lon = []) : ∃ g, Machine.storeLongitude s T sc = .done g := by
  cases sc with
  | some c => exact machine_storeLongitude_runs s T lon c h
  | none =>
    have hm := holds_mem T _ _ h
    have hl := holds_strlen T _ _ h hf
    unfold Machine.storeLongitude
    simp only [hm, not_true_eq_false, if_false, hl, hsc rfl, List.length_nil, Nat.zero_mod,
      if_true]
    exact ⟨_, rfl⟩

/-- A call for a carriage return that does not take the branch of the false
result leaves the objects of the program or returns true with `isValid` set. -/
theorem machine_not_abandoned (e : Machine.Env) (s : GPS) (line : List Nat)
    (hi : s.buffer_index = 0) (hcr : ∀ c ∈ line, c ≠ 13) (hlen : line.length < 300)
    (hne : strcmp (line ++ 13 :: s.buffer.drop (line.length + 1)) [36, 71, 80, 82, 0] ≠ 0) :
    (∃ f, Machine.carriageReturn e s line = .fault f) ∨
      (∃ g, Machine.carriageReturn e s line = .done (g, true) ∧ g.isValid = true) := by
  rw [machine_carriageReturn_line e s line hi hcr hlen, if_pos hne]
  cases Machine.splitLoop 301
      (Machine.region 300 (line ++ 13 :: s.buffer.drop (line.length + 1)))
      (Machine.region 300 e.parts) e.i with
  | fault f => exact Or.inl ⟨f, rfl⟩
  | done T =>
    simp only
    cases hfix : Machine.storeFix e
        { s with buffer := line ++ 13 :: s.buffer.drop (line.length + 1),
                 buffer_index := line.length + 1, isComplete := true } T with
    | fault f => exact Or.inl ⟨f, rfl⟩
    | done g =>
      exact Or.inr ⟨_, rfl, (machine_storeFix_frame e _ g T hfix).1⟩

/-- A store below an offset leaves what lies from that offset on. -/
theorem drop_pokes_above (m : List Nat) (off k : Nat) (bs : List Nat) (h : off ≤ m.length)
    (hk : off + bs.length ≤ k) : (pokes m off bs).drop k = m.drop k := by
  rw [pokes_inside m off bs h]
  have hl : (m.take off ++ bs).length = off + bs.length := by
    rw [List.length_append, List.length_take]; omega
  obtain ⟨j, rfl⟩ := Nat.exists_eq_add_of_le hk
  rw [← hl, List.drop_append, List.drop_drop, hl]

/-- The last piece of a line holds no comma before the NUL byte behind its
carriage return. -/
theorem strchr_last (f Z : List Nat) (h : ∀ b ∈ f, b ≠ 0 ∧ b ≠ 44 ∧ b ≠ 13) :
    strchr 44 (f ++ 13 :: 0 :: Z) = none := by
  induction f with
  | nil => simp [strchr]
  | cons b bs ih =>
    have hb := h b (by simp)
    have := ih (fun x hx => h x (by simp [hx]))
    simp [strchr, hb.1, hb.2.1, this]

/-- The last turn of the loop: line 67 stores 20 bytes. -/
theorem machine_splitLoop_last (fuel : Nat) (f Z parts : List Nat) (i : Nat)
    (h : ∀ b ∈ f, b ≠ 0 ∧ b ≠ 44 ∧ b ≠ 13) (hi : 20 * i + 20 ≤ 300) :
    Machine.splitLoop (fuel + 1) (f ++ 13 :: 0 :: Z) parts i
      = .done (pokes parts (20 * i) (strncpyBytes (f ++ 13 :: 0 :: Z) 20)) := by
  have h0 : ¬ 0 ∉ f ++ 13 :: 0 :: Z := by simp
  simp only [Machine.splitLoop, strchr_last f Z h]
  rw [if_neg h0, if_neg (by omega)]

theorem holds_empty_of_drop (T P : List Nat) (k : Nat) (h : T.drop (20 * k) = P.drop (20 * k))
    (hP : Machine.Holds P k []) : Machine.Holds T k [] := by
  unfold Machine.Holds at hP ⊢
  rw [h, hP]

/-- The table after a line of three pieces: row 1 holds the second piece, and the
rows from 3 on are as the call found them. -/
theorem three_rows (P B t : List Nat) (hP : P.length = 300) (hB : B.length = 20)
    (ht : t.length < 20)
    (hrows : ∀ k, 3 ≤ k → k ≤ 7 → Machine.Holds P k []) :
    Machine.Holds (pokes (pokes (pokes P (20 * 0) (GPRMC ++ [0])) (20 * (0 + 1)) (t ++ [0]))
        (20 * (0 + 1 + 1)) B) RMC_FIX_TIME t ∧
      ∀ k, 3 ≤ k → k ≤ 7 →
        Machine.Holds (pokes (pokes (pokes P (20 * 0) (GPRMC ++ [0])) (20 * (0 + 1))
          (t ++ [0])) (20 * (0 + 1 + 1)) B) k [] := by
  have h1 : (pokes P (20 * 0) (GPRMC ++ [0])).length = 300 := by
    rw [pokes_length_eq _ _ _ (by simp [GPRMC]; omega), hP]
  have h2 : (pokes (pokes P (20 * 0) (GPRMC ++ [0])) (20 * (0 + 1)) (t ++ [0])).length
      = 300 := by
    rw [pokes_length_eq _ _ _ (by rw [h1]; simp; omega), h1]
  constructor
  · exact holds_of_take _ _ 1 40 t (take_pokes _ 40 40 B (le_refl _) (by omega))
      (by omega) (holds_pokes _ 1 t (by omega))
  · intro k h3 h7
    apply holds_empty_of_drop _ P k _ (hrows k h3 h7)
    rw [drop_pokes_above _ _ _ _ (by omega) (by omega),
      drop_pokes_above _ _ _ _ (by omega) (by simp; omega),
      drop_pokes_above _ _ _ _ (by omega) (by simp [GPRMC]; omega)]

/-- The stores on a table whose rows 3 to 7 hold the empty string: every store
from the latitude on takes the branch of the sentinel. -/
theorem machine_storeFix_time_only (e : Machine.Env) (s : GPS) (T t : List Nat)
    (h1 : Machine.Holds T RMC_FIX_TIME t)
    (hk : ∀ k, 3 ≤ k → k ≤ 7 → Machine.Holds T k []) :
    ∃ g, Machine.storeFix e s T = .done g ∧ g.isComplete = false ∧
      g.velocity = GPS_DATA_INVALID := by
  have hnil : Field [] := by decide
  obtain ⟨s1, r1⟩ := machine_storeTime_runs e { s with isValid := true } T t h1
  obtain ⟨s2, r2⟩ := machine_storeLatitude_empty e s1 T (hk 3 (by omega) (by omega))
  obtain ⟨s3, r3⟩ : ∃ s3, Machine.storeLatDir s2 T = .done s3 :=
    ⟨_, machine_storeLatDir_row s2 T [] (hk 4 (by omega) (by omega)) hnil⟩
  obtain ⟨s4, r4⟩ := machine_storeLongitude_goes s3 T [] none
    (hk 5 (by omega) (by omega)) hnil (fun _ => rfl)
  obtain ⟨s5, r5⟩ : ∃ s5, Machine.storeLonDir s4 T = .done s5 :=
    ⟨_, machine_storeLonDir_row s4 T [] (hk 6 (by omega) (by omega)) hnil⟩
  have r6 := machine_storeVelocity_empty e s5 T (hk 7 (by omega) (by omega))
  exact ⟨_, machine_storeFix_chain e s s1 s2 s3 s4 s5 _ T none r1 r2 r3 r4 r5 r6, rfl, rfl⟩

/-- A line `$GPRMC,t,st` of three fields, on a machine with 0 in `i` whose rows 3 to
7 hold the empty string: the call for the carriage return returns true. -/
theorem machine_three_fields (e : Machine.Env) (s : GPS) (t st : List Nat)
    (hi : s.buffer_index = 0)
    (hb : s.buffer.length ≤ (GPRMC ++ 44 :: (t ++ 44 :: st)).length + 1)
    (ht : Field t) (hst : Field st) (he : e.i = 0)
    (hrows : ∀ k, 3 ≤ k → k ≤ 7 → Machine.Holds (Machine.region 300 e.parts) k []) :
    ∃ g, Machine.carriageReturn e s (GPRMC ++ 44 :: (t ++ 44 :: st)) = .done (g, true) ∧
      g.isValid = true ∧ g.isComplete = false ∧ g.velocity = GPS_DATA_INVALID := by
  have hline : ∀ c ∈ GPRMC ++ 44 :: (t ++ 44 :: st), c ≠ 13 := by
    intro c hc
    simp only [List.mem_append, List.mem_cons] at hc
    rcases hc with h | rfl | h | rfl | h
    · exact (field_GPRMC.2 c h).2.2
    · decide
    · exact (ht.2 c h).2.2
    · decide
    · exact (hst.2 c h).2.2
  have hlen : (GPRMC ++ 44 :: (t ++ 44 :: st)).length = t.length + st.length + 8 := by
    simp [GPRMC]; omega
  have ht1 := ht.1
  have hst1 := hst.1
  rw [machine_carriageReturn_line e s _ hi hline (by omega),
    if_pos (by rw [List.append_assoc]; exact strcmp_line _),
    List.drop_eq_nil_of_le hb]
  have hreg : Machine.region 300 (GPRMC ++ 44 :: (t ++ 44 :: st) ++ [13])
      = GPRMC ++ 44 :: (t ++ 44 :: (st ++ 13 :: 0 ::
          List.replicate (290 - t.length - st.length) 0)) := by
    rw [region_short 300 _ (by rw [List.length_append, hlen]; simp; omega),
      List.length_append, hlen,
      show 300 - (t.length + st.length + 8 + [13].length)
        = (290 - t.length - st.length) + 1 by simp; omega, List.replicate_succ]
    simp
  have hP := region_length 300 e.parts
  rw [hreg, he]
  rw [show Machine.splitLoop 301 = Machine.splitLoop (300 + 1) from rfl,
    machine_splitLoop_step 300 GPRMC _ _ 0 field_GPRMC.2 (by decide),
    show Machine.splitLoop 300 = Machine.splitLoop (299 + 1) from rfl,
    machine_splitLoop_step 299 t _ _ (0 + 1) ht.2 (by omega),
    show Machine.splitLoop 299 = Machine.splitLoop (298 + 1) from rfl,
    machine_splitLoop_last 298 st _ _ (0 + 1 + 1) hst.2 (by omega)]
  simp only
  obtain ⟨h1, hk⟩ := three_rows (Machine.region 300 e.parts)
    (strncpyBytes (st ++ 13 :: 0 :: List.replicate (290 - t.length - st.length) 0) 20) t hP
    (strncpyBytes_length _ _) ht1 hrows
  obtain ⟨g, hg, hc, hv⟩ := machine_storeFix_time_only e
    { s with buffer := GPRMC ++ 44 :: (t ++ 44 :: st) ++ [13],
             buffer_index := (GPRMC ++ 44 :: (t ++ 44 :: st)).length + 1,
             isComplete := true } _ t h1 hk
  rw [hg]
  exact ⟨_, rfl, (machine_storeFix_frame e _ g _ hg).1, hc, hv⟩

/-- C18, amended: for every machine, every parser state at the start of a line
and every line that begins `$GPRMC`, whatever the number of its fields, the
parse is not abandoned: the call for the carriage return does not return
false; when it returns, it returns true with `isValid` set. For a line
`$GPRMC,t,st` of three fields, when `i` holds 0, the rows 3 to 7 of `parts`
hold the empty string and the buffer holds nothing behind the line, the call
returns true, with `isValid` set, `isComplete` cleared and `velocity` at the
sentinel: the stores have read the rows that the line never filled. -/
theorem short_line_not_abandoned (e : Machine.Env) (s : GPS) (r : List Nat)
    (hi : s.buffer_index = 0) (hcr : ∀ c ∈ r, c ≠ 13) (hlen : (GPRMC ++ r).length < 300) :
    ((∃ f, Machine.carriageReturn e s (GPRMC ++ r) = .fault f) ∨
      (∃ g, Machine.carriageReturn e s (GPRMC ++ r) = .done (g, true) ∧
        g.isValid = true)) ∧
    ∀ t st : List Nat, r = 44 :: (t ++ 44 :: st) → Field t → Field st → e.i = 0 →
      s.buffer.length ≤ (GPRMC ++ r).length + 1 →
      (∀ k ∈ [RMC_LAT_INDEX, RMC_LAT_DIR_INDEX, RMC_LON_INDEX, RMC_LON_DIR_INDEX,
          RMC_VEL_KTS_INDEX], Machine.Holds (Machine.region 300 e.parts) k []) →
      ∃ g, Machine.carriageReturn e s (GPRMC ++ r) = .done (g, true) ∧
        g.isValid = true ∧ g.isComplete = false ∧ g.velocity = GPS_DATA_INVALID := by
  have hline : ∀ c ∈ GPRMC ++ r, c ≠ 13 := by
    intro c hc
    rcases List.mem_append.1 hc with h | h
    · exact (field_GPRMC.2 c h).2.2
    · exact hcr c h
  refine ⟨machine_not_abandoned e s (GPRMC ++ r) hi hline hlen
    (by rw [List.append_assoc]; exact strcmp_line _), ?_⟩
  intro t st hr ht hst he hb hrows
  subst hr
  refine machine_three_fields e s t st hi hb ht hst he ?_
  intro k h3 h7
  apply hrows
  interval_cases k <;> decide

/-- C18, witness: the line `$GPRMC,123519,A` on the machine `calm` at power-up. -/
theorem short_line_not_abandoned_witness :
    boot.buffer_index = 0 ∧ (GPRMC ++ bytes ",123519,A").length < 300 ∧
      ((∃ f, Machine.carriageReturn Machine.calm boot (GPRMC ++ bytes ",123519,A")
            = .fault f) ∨
        (∃ g, Machine.carriageReturn Machine.calm boot (GPRMC ++ bytes ",123519,A")
            = .done (g, true) ∧ g.isValid = true)) ∧
      ∃ g, Machine.carriageReturn Machine.calm boot (GPRMC ++ bytes ",123519,A")
          = .done (g, true) ∧
        g.isValid = true ∧ g.isComplete = false ∧ g.velocity = GPS_DATA_INVALID :=
  ⟨rfl, by decide,
    (short_line_not_abandoned Machine.calm boot (bytes ",123519,A") rfl (by decide)
      (by decide)).1,
    (short_line_not_abandoned Machine.calm boot (bytes ",123519,A") rfl (by decide)
      (by decide)).2 (bytes "123519") (bytes "A") (by decide) (by decide) (by decide) rfl
      (by decide) (by decide)⟩

set_option maxRecDepth 100000 in
/-- C18, counterexample: on the machine `calm` at power-up the call for the
carriage return of the line `$GPRMC,123519,A`, of three fields, returns true
and has stored the time 12:35:19 over the earlier one. -/
theorem short_line_stores_time :
    shortLine = GPRMC ++ bytes ",123519,A" ∧
      (Machine.carriageReturn Machine.calm boot shortLine).map
          (fun r => (r.2, r.1.isValid, r.1.time))
        = .done (true, true, { hour := 12, minute := 35, second := 19 }) ∧
      boot.time ≠ { hour := 12, minute := 35, second := 19 } := by
  decide

/-! ## The field table has no bound -/

/-- The loop on a string of so many pieces that they do not fit the rows from
row `i` on: it stores outside the table. -/
theorem machine_splitLoop_overrun (fuel : Nat) : ∀ (q parts : List Nat) (i : Nat),
    q.length < fuel → 0 ∈ q → 15 ≤ i + commaCount q →
    Machine.splitLoop fuel q parts i = .fault .tableStore := by
  induction fuel with
  | zero => intro q parts i h; omega
  | succ fuel ih =>
    intro q parts i hf h0 hc
    rw [Machine.splitLoop]
    cases hs : strchr 44 q with
    | none =>
      have hz := (commaCount_strchr q).1 hs
      rw [hz] at hc
      simp only [h0, not_true_eq_false, if_false,
        if_pos (show 300 < 20 * i + 20 by omega)]
    | some n =>
      have hcc := (commaCount_strchr q).2 n hs
      obtain ⟨_, hm⟩ := strchr_comma q n hs
      have hn := strchr_lt q n hs
      by_cases hst : 300 ≤ 20 * i + n
      · simp only [if_pos hst]
      · simp only [if_neg hst]
        exact ih _ _ _ (by rw [List.length_drop]; omega) (hm h0) (by omega)

/-- C25, amended: the comma-splitting loop of `GPS::appendCharacter` checks neither
the number nor the length of the pieces, and no line is rejected. For every
machine, every parser state at the start of a line whose buffer was never
stored to in its last byte, and every line without NUL byte that leaves that
byte free, the call for the carriage return does not return false: it returns
true with `isValid` set, or it leaves the objects of the program; when the
line has so many commas that its pieces do not fit the rows from row `i` on
(15 commas or more when `i` is 0, that is 16 fields or more), the loop stores
outside the table; and a turn of the loop stores a piece of any length whole
from the start of its row, with its terminator, as long as the store stays
inside the 300 bytes of the table, so that a piece of 20 or more characters
runs on into the next row. -/
theorem field_table_not_bounded (e : Machine.Env) (s : GPS) (line : List Nat)
    (hi : s.buffer_index = 0) (hb : s.buffer.length < 300)
    (hpl : ∀ c ∈ line, c ≠ 13 ∧ c ≠ 0) (hlen : line.length < 299) :
    ((∃ f, Machine.carriageReturn e s line = .fault f) ∨
      (∃ g, Machine.carriageReturn e s line = .done (g, true) ∧ g.isValid = true)) ∧
    (15 ≤ e.i + line.count 44 →
      Machine.carriageReturn e s line = .fault .tableStore) ∧
    (∀ (fuel : Nat) (f r parts : List Nat) (i : Nat),
      (∀ b ∈ f, b ≠ 0 ∧ b ≠ 44 ∧ b ≠ 13) → 20 * i + f.length < 300 →
      Machine.splitLoop (fuel + 1) (f ++ 44 :: r) parts i
        = Machine.splitLoop fuel r (pokes parts (20 * i) (f ++ [0])) (i + 1)) := by
  have hcr : ∀ c ∈ line, c ≠ 13 := fun c hc => (hpl c hc).1
  have hne := strcmp_plain_line line (s.buffer.drop (line.length + 1)) hpl
  refine ⟨machine_not_abandoned e s line hi hcr (by omega) hne, ?_,
    fun fuel f r parts i hf h => machine_splitLoop_step fuel f r parts i hf h⟩
  intro h15
  have hBl : (line ++ 13 :: s.buffer.drop (line.length + 1)).length < 300 := by
    simp only [List.length_append, List.length_cons, List.length_drop]
    omega
  have hreg := region_short 300 (line ++ 13 :: s.buffer.drop (line.length + 1)) (by omega)
  have h0 : 0 ∈ Machine.region 300 (line ++ 13 :: s.buffer.drop (line.length + 1)) := by
    rw [hreg]
    apply List.mem_append_right
    rw [List.mem_replicate]
    exact ⟨by omega, rfl⟩
  have hc : line.count 44
      ≤ commaCount (Machine.region 300 (line ++ 13 :: s.buffer.drop (line.length + 1))) := by
    rw [hreg, List.append_assoc, commaCount_append line _ (fun c hc => (hpl c hc).2)]
    omega
  rw [machine_carriageReturn_line e s line hi hcr (by omega), if_pos hne,
    machine_splitLoop_overrun 301 _ _ e.i (by rw [region_length]; omega) h0 (by omega)]

/-- C25, witness: the line `manyFields` of 17 fields, on the machine `calm` at
power-up. -/
theorem field_table_not_bounded_witness :
    boot.buffer_index = 0 ∧ manyFields.length < 299 ∧
      15 ≤ Machine.calm.i + manyFields.count 44 ∧
      Machine.carriageReturn Machine.calm boot manyFields = .fault .tableStore :=
  ⟨rfl, by decide, by decide,
    (field_table_not_bounded Machine.calm boot manyFields rfl (by decide) (by decide)
      (by decide)).2.1 (by decide)⟩

set_option maxRecDepth 100000 in
/-- C25, counterexample: on the machine `calm` at power-up the line `manyFields` of
17 fields is not rejected: the loop goes on to its sixteenth piece and stores
it outside the table. The line `wideField`, whose latitude field has 21
characters, is not rejected either: the call returns true, with the time
12:35:19 stored over the time at power-up. -/
theorem field_table_counterexample :
    Machine.carriageReturn Machine.calm boot manyFields = .fault .tableStore ∧
      (Machine.carriageReturn Machine.calm boot wideField).map (fun r => (r.2, r.1.time))
        = .done (true, { hour := 12, minute := 35, second := 19 }) ∧
      boot.time ≠ { hour := 12, minute := 35, second := 19 } := by
  decide

/-! ## Sentences on which the call does not return, and bytes behind the blocks -/

set_option maxRecDepth 100000 in
/-- C3, at the failing input: the sentence with the time field `123519`, on a
machine that holds the digit `9` behind the two bytes of the block `hr`, leaves
`time.hour` at 129; with a NUL byte there, at 12. -/
theorem hour_read_past_block :
    rmcExample.Valid ∧ rmcExample.time = bytes "123519" ∧
      Machine.Ready { Machine.calm with hr := [0, 0, 57] } boot rmcExample ∧
      (Machine.parse { Machine.calm with hr := [0, 0, 57] } boot rmcExample).map GPS.time
        = .done { hour := 129, minute := 35, second := 19 } ∧
      (Machine.parse Machine.calm boot rmcExample).map GPS.time
        = .done { hour := 12, minute := 35, second := 19 } := by
  decide

set_option maxRecDepth 100000 in
/-- C4, at the failing input: the sentence with the velocity field `022.4`, on a
machine that holds the digit `9` behind the three bytes of the block
`velocity_str`, leaves `velocity` at 229; with a NUL byte there, at 22. -/
theorem velocity_read_past_block :
    rmcExample.Valid ∧ rmcExample.vel = bytes "022.4" ∧
      Machine.Ready { Machine.calm with velocity_str := [0, 0, 0, 57] } boot rmcExample ∧
      (Machine.parse { Machine.calm with velocity_str := [0, 0, 0, 57] } boot
          rmcExample).map GPS.velocity = .done 229 ∧
      (Machine.parse Machine.calm boot rmcExample).map GPS.velocity = .done 22 := by
  decide

set_option maxRecDepth 100000 in
/-- C6, at the failing input: the sentence with the latitude field `4807.03`, of
length 7, on a machine whose block `deg` holds the digit `9` in its third
byte, which the copy of two characters leaves as it was, has
`latitude.degrees` at 233, the value of `489` modulo 256; with a NUL byte
there, at 48. -/
theorem degrees_read_third_byte :
    rmcNarrow.Valid ∧ rmcNarrow.lat = bytes "4807.03" ∧
      Machine.Ready { Machine.calm with deg := [0, 0, 57] } boot rmcNarrow ∧
      (Machine.parse { Machine.calm with deg := [0, 0, 57] } boot rmcNarrow).map
          (fun g => g.latitude.degrees) = .done 233 ∧
      (Machine.parse Machine.calm boot rmcNarrow).map (fun g => g.latitude.degrees)
        = .done 48 := by
  decide

set_option maxRecDepth 100000 in
/-- C7, at the failing input: the sentence with the latitude field `4807.03` and
the longitude field `01131.00`, on a machine that holds the digit `9` behind
the two bytes of the block `min_dec`, has `latitude.seconds` at 23 and
`longitude.seconds` at 5; with a NUL byte there, at 1 and 0. -/
theorem seconds_read_past_block :
    rmcNarrow.WF ∧ rmcNarrow.lat = bytes "4807.03" ∧ rmcNarrow.lon = bytes "01131.00" ∧
      Machine.Ready { Machine.calm with min_dec := [0, 0, 57] } boot rmcNarrow ∧
      (Machine.parse { Machine.calm with min_dec := [0, 0, 57] } boot rmcNarrow).map
          (fun g => (g.latitude.seconds, g.longitude.seconds)) = .done (23, 5) ∧
      (Machine.parse Machine.calm boot rmcNarrow).map
          (fun g => (g.latitude.seconds, g.longitude.seconds)) = .done (1, 0) := by
  decide

set_option maxRecDepth 100000 in
/-- C8, at the failing input: on the sentence `rmcNoLatitude`, with status `A`, an
empty latitude field and a longitude, the call for the carriage return does
not return: no value of `isComplete` results. -/
theorem empty_latitude_no_isComplete :
    rmcNoLatitude.Valid ∧ Machine.Ready Machine.calm boot rmcNoLatitude ∧
      rmcNoLatitude.lat = [] ∧ rmcNoLatitude.lon = bytes "01131.00" ∧
      Machine.parse Machine.calm boot rmcNoLatitude = .fault .wildStore := by
  decide

set_option maxRecDepth 100000 in
/-- C9, at the failing input: on the sentence `rmcNoLatitudeDir`, with an empty
latitude field, an empty latitude direction and a longitude, the call for the
carriage return does not return: the record is not left with the sentinels
and the values of the other fields. -/
theorem empty_latitude_no_sentinels :
    rmcNoLatitudeDir.Valid ∧ Machine.Ready Machine.calm boot rmcNoLatitudeDir ∧
      rmcNoLatitudeDir.lat = [] ∧ rmcNoLatitudeDir.latDir = [] ∧
      rmcNoLatitudeDir.lon = bytes "01131.000" ∧
      Machine.parse Machine.calm boot rmcNoLatitudeDir = .fault .wildStore := by
  decide

set_option maxRecDepth 100000 in
/-- C19, at the failing input: the line `$GPRMC,123519,A` fed twice from power-up.
When the second carriage return finds 1 in `i`, where the first found 0, the
time after the two feeds is 0:00:00, and after one feed 12:35:19; when both
find 0, it is 12:35:19 after the two feeds as well. -/
theorem reparse_depends_on_i :
    (Machine.feed Machine.calm boot (shortLine ++ [0x0D])).map GPS.time
        = .done { hour := 12, minute := 35, second := 19 } ∧
      (Machine.twice Machine.calm { Machine.calm with i := 1 } boot shortLine).map GPS.time
        = .done { hour := 0, minute := 0, second := 0 } ∧
      (Machine.twice Machine.calm Machine.calm boot shortLine).map GPS.time
        = .done { hour := 12, minute := 35, second := 19 } := by
  decide

set_option maxRecDepth 100000 in
/-- C23, at the failing inputs: on the line `rmbLine`, whose eighth piece `N` has
one character, the call for the carriage return stores past the block
`velocity_str` (line 194) and does not come to the reset of lines 202-203; on
the line of the sentence `rmcNoLatitude` it stores through pointers that were
never set (lines 156-158) and does not come to it either. -/
theorem carriage_return_not_reached :
    Machine.carriageReturn Machine.calm boot rmbLine = .fault .blockStore ∧
      Machine.carriageReturn Machine.calm boot rmcNoLatitude.line = .fault .wildStore := by
  decide

/-! ## The two parsers on the inputs of the examples -/

set_option maxRecDepth 100000 in
/-- On the sentences and lines that the failing inputs of the first sections use,
`appendCharacter` leaves the fix record that the call on the machine `calm`
leaves. -/
theorem calm_agrees :
    (∃ r, (Machine.parse Machine.calm boot rmcNarrow).map fixRecord = .done r ∧
        fixRecord (parse boot rmcNarrow) = r) ∧
      (∃ r, (Machine.parse Machine.calm boot rmcExample).map fixRecord = .done r ∧
        fixRecord (parse boot rmcExample) = r) ∧
      (∃ r, (Machine.parse Machine.calm boot rmcSouthWest).map fixRecord = .done r ∧
        fixRecord (parse boot rmcSouthWest) = r) ∧
      (∃ r, (Machine.parse Machine.calm boot rmcVoid).map fixRecord = .done r ∧
        fixRecord (parse boot rmcVoid) = r) ∧
      (∃ r, (Machine.carriageReturn Machine.calm boot ggaLine).map
            (fun g => fixRecord g.1) = .done r ∧
        fixRecord (appendCharacter (feed boot ggaLine) 13).1 = r) ∧
      (∃ b, (Machine.carriageReturn Machine.calm boot ggaLine).map Prod.snd = .done b ∧
        (appendCharacter (feed boot ggaLine) 13).2 = b) :=
  ⟨⟨(⟨12, 35, 19⟩, ⟨48, 7, 1, 1⟩, ⟨224, 31, 0, 0⟩, 22, true, true), by decide, by decide⟩,
    ⟨(⟨12, 35, 19⟩, ⟨224, 7, 22, 1⟩, ⟨224, 1, 0, 0⟩, 22, true, true), by decide, by decide⟩,
    ⟨(⟨12, 35, 19⟩, ⟨48, 7, 1, 1⟩, ⟨224, 31, 0, 0⟩, 22, true, true), by decide, by decide⟩,
    ⟨(⟨12, 35, 19⟩, ⟨48, 7, 1, 1⟩, ⟨224, 31, 0, 0⟩, 22, true, true), by decide, by decide⟩,
    ⟨(⟨12, 35, 19⟩, ⟨0, 0, 0, 1⟩, ⟨0, 0, 0, 0⟩, 0, true, true), by decide, by decide⟩,
    ⟨true, by decide, by decide⟩⟩

end GpsBridge
